import Mathlib

/-!
Verification development for the GGUF cross-framework benchmark harness
(`benchmarks/gguf/gguf_compare.py`).

The Python source is shallowly embedded: pure helper functions become Lean
functions over `ℚ` (exact rationals standing in for IEEE floats — none of the
verified properties depends on rounding), Python dictionaries become
association lists with overwrite-on-insert, exceptions become `Except` /
explicit error constructors, and the orchestrator `main` becomes a recursive
state-passing function over a scripted process executor (`run_once` is the
executor boundary: each scripted outcome is either a completed process record
or a timeout).
-/

namespace GGUFCompare

/-! The definitions: the shallow embedding of the source. -/

/-- Python `min(values)` over a non-empty numeric list (left fold of binary
`min`; the `[]` case is junk, every use site guards non-emptiness as the
source does via its own emptiness checks). -/
def listMin : List ℚ → ℚ
  | [] => 0
  | x :: xs => xs.foldl min x

/-- Python `max(values)` over a non-empty numeric list. -/
def listMax : List ℚ → ℚ
  | [] => 0
  | x :: xs => xs.foldl max x

/-- Python `max(...)` over a non-empty list of naturals (label lengths in the
chart renderer). -/
def listMaxNat : List ℕ → ℕ
  | [] => 0
  | x :: xs => xs.foldl max x

/-- Python `sorted(values)`: a stable ascending sort. -/
def pySorted (values : List ℚ) : List ℚ :=
  List.insertionSort (· ≤ ·) values

/-- Python `int(k)` truncates toward zero; on the non-negative rationals that
the percentile computation produces this is the floor. -/
def truncInt (q : ℚ) : ℤ :=
  if 0 ≤ q then ⌊q⌋ else ⌈q⌉

/-- Model of `percentile(values, p)` from the source: `ValueError` on an empty series
(modelled as `none`), the minimum for `p <= 0`, the maximum for `p >= 100`,
otherwise linear interpolation between the order statistics at
`lower = int(k)` and `upper = min(lower + 1, n - 1)` where
`k = (n - 1) * (p / 100)`. -/
def percentile (values : List ℚ) (p : ℚ) : Option ℚ :=
  match values with
  | [] => none
  | v :: vs =>
    if p ≤ 0 then some (listMin (v :: vs))
    else if 100 ≤ p then some (listMax (v :: vs))
    else
      let sorted_values := pySorted (v :: vs)
      let n : ℕ := sorted_values.length
      let k : ℚ := ((n : ℚ) - 1) * (p / 100)
      let lower : ℤ := truncInt k
      let upper : ℤ := min (lower + 1) ((n : ℤ) - 1)
      if lower = upper then some (sorted_values.getD lower.toNat 0)
      else
        let fraction : ℚ := k - (lower : ℚ)
        some (sorted_values.getD lower.toNat 0 * (1 - fraction) +
              sorted_values.getD upper.toNat 0 * fraction)

/-- The specification formula for the interior case of `percentile`: linear
interpolation between the order statistics at `floor k` and `ceil k` of the
sorted sequence, `k = (n - 1) * p / 100`. -/
def specPercentileInterp (values : List ℚ) (p : ℚ) : ℚ :=
  let s := pySorted values
  let k : ℚ := ((values.length : ℚ) - 1) * p / 100
  let lo := s.getD (⌊k⌋).toNat 0
  let hi := s.getD (⌈k⌉).toNat 0
  lo + (k - (⌊k⌋ : ℚ)) * (hi - lo)

/-- Python `statistics.mean(data)`: the arithmetic mean. -/
def pyMean (data : List ℚ) : ℚ :=
  data.sum / data.length

/-- Python `statistics.median(data)`: middle element of the sorted data for
odd length, average of the two middle elements for even length. -/
def pyMedian (data : List ℚ) : ℚ :=
  let s := pySorted data
  let n := s.length
  if n % 2 = 1 then s.getD (n / 2) 0
  else (s.getD (n / 2 - 1) 0 + s.getD (n / 2) 0) / 2

/-- The population variance underlying `statistics.pstdev(data)`. -/
def pvariance (data : List ℚ) : ℚ :=
  (data.map (fun x => (x - pyMean data) ^ 2)).sum / data.length

/-- The summary dictionary produced by `summarize`. -/
structure Summary where
  mean : ℚ
  median : ℚ
  min : ℚ
  max : ℚ
  p95 : ℚ
  stdev : ℚ
  deriving DecidableEq, Repr

/-- Model of `summarize(values)` from the source. An empty series yields the empty
dictionary, modelled as `none`. `statistics.pstdev` is the square root of the
population variance; exact square roots leave `ℚ`, so the square-root step of
`math` is abstracted as the parameter `sqrtQ` (an IEEE square root is itself a
rational; no verified claim depends on its values — the single-element branch
returns `0.0` without consulting it, exactly as the source does). -/
def summarize (sqrtQ : ℚ → ℚ) (values : List ℚ) : Option Summary :=
  match values with
  | [] => none
  | v :: vs =>
    let data := v :: vs
    some
      { mean := pyMean data
        median := pyMedian data
        min := listMin data
        max := listMax data
        p95 := (percentile data 95).getD 0
        stdev := if 1 < data.length then sqrtQ (pvariance data) else 0 }

abbrev RegexMatcher := String → Option String

/-- ASCII lower-casing of one character (kernel-reducible counterpart of
`Char.toLower`). -/
def lowerChar (c : Char) : Char :=
  if c.isUpper then Char.ofNat (c.toNat + 32) else c

/-- Python `s.lower()`. -/
def pyLower (s : String) : String :=
  (s.toList.map lowerChar).asString

/-- Drop leading and trailing whitespace from a character list. -/
def stripChars (cs : List Char) : List Char :=
  ((cs.dropWhile (·.isWhitespace)).reverse.dropWhile (·.isWhitespace)).reverse

/-- Python `s.strip()`. -/
def pyStrip (s : String) : String :=
  (stripChars s.toList).asString

/-- Digit string to number, most significant first. -/
def natOfDigits (cs : List Char) : ℕ :=
  cs.foldl (fun acc c => acc * 10 + (c.toNat - 48)) 0

/-- Sign / integer digits / fraction digits of a (whitespace-stripped,
sign-prefixed) decimal literal accepted by Python `float(...)`; `none` models
the `ValueError` that `parse_numeric_metric` catches. -/
def pyFloatParts (s : String) : Option (Bool × List Char × List Char) :=
  let cs := stripChars s.toList
  let signed : Bool × List Char :=
    match cs with
    | '-' :: t => (true, t)
    | '+' :: t => (false, t)
    | t => (false, t)
  let rest := signed.2
  let ip := rest.takeWhile (fun c => c != '.')
  match rest.drop ip.length with
  | [] =>
    if (!ip.isEmpty) && ip.all Char.isDigit then some (signed.1, ip, []) else none
  | '.' :: fp =>
    if (!ip.isEmpty || !fp.isEmpty) && ip.all Char.isDigit && fp.all Char.isDigit then
      some (signed.1, ip, fp)
    else none
  | _ => none

/-- Python `float(s)` on decimal literals: the value of the parsed parts. -/
def pyFloat (s : String) : Option ℚ :=
  (pyFloatParts s).map (fun parts =>
    let v : ℚ := (natOfDigits parts.2.1 : ℚ) + (natOfDigits parts.2.2 : ℚ) / 10 ^ parts.2.2.length
    if parts.1 then -v else v)

/-- Model of `parse_numeric_metric(text, regexes)` from the source: try the patterns in
declaration order; on a match, return `float(match.group(1))`, and on a
`ValueError` fall through to the next pattern; return `None` when the list is
exhausted. -/
def parse_numeric_metric (text : String) (regexes : List RegexMatcher) : Option ℚ :=
  match regexes with
  | [] => none
  | pattern :: rest =>
    match pattern text with
    | some cap =>
      match pyFloat cap with
      | some v => some v
      | none => parse_numeric_metric text rest
    | none => parse_numeric_metric text rest

/-- Search the haystack position by position for the literal `lit`; at the
first hit, capture via `cap` from the suffix after the literal. -/
def searchCapture (lit : List Char) (cap : List Char → Option (List Char)) :
    List Char → Option (List Char)
  | [] => none
  | c :: cs =>
    if lit.isPrefixOf (c :: cs) then
      match cap ((c :: cs).drop lit.length) with
      | some g => some g
      | none => searchCapture lit cap cs
    else searchCapture lit cap cs

/-- Capture semantics of a `(\d+)` group. -/
def capDigits (cs : List Char) : Option (List Char) :=
  let d := cs.takeWhile Char.isDigit
  if d.isEmpty then none else some d

/-- Capture semantics of a `(\d+\.?\d*)` group. -/
def capTok (cs : List Char) : Option (List Char) :=
  let d := cs.takeWhile Char.isDigit
  if d.isEmpty then none
  else
    match cs.drop d.length with
    | '.' :: r2 => some (d ++ '.' :: r2.takeWhile Char.isDigit)
    | _ => some d

/-- Matcher semantics of the spec-example pattern `nope:(\d+)` (the haystack
is lowered, reflecting the `IGNORECASE` flag). -/
def nopeMatcher : RegexMatcher := fun text =>
  (searchCapture ("nope:".toList) capDigits (pyLower text).toList).map List.asString

/-- Matcher semantics of the spec-example pattern `tok:(\d+\.?\d*)`. -/
def tokMatcher : RegexMatcher := fun text =>
  (searchCapture ("tok:".toList) capTok (pyLower text).toList).map List.asString

/-- One bar of the rendered chart: its text label, computed bar width in
pixels, and the raw value printed next to the bar. -/
structure ChartBar where
  label : String
  barW : ℚ
  value : ℚ
  deriving DecidableEq

/-- The rendered chart: either the placeholder paragraph emitted for an empty
row list, or the SVG dimensions, the scale denominator actually used, and one
bar per row. -/
inductive SvgChart
  | emptyChart
  | chart (width height scale : ℚ) (bars : List ChartBar)
  deriving DecidableEq

/-- Model of `build_svg_chart(rows, metric)` from the source, geometry retained (the
assembly of the markup text is elided; each emitted `rect` bar element
appears as one `ChartBar`). A maximum median that is zero or negative is
replaced by `1.0` before being used as the scale denominator. -/
def build_svg_chart (rows : List (String × ℚ)) : SvgChart :=
  match rows with
  | [] => .emptyChart
  | r :: rs =>
    let all := r :: rs
    let max_label_len : ℕ := listMaxNat (all.map (fun row => row.1.length))
    let left_pad : ℚ := max 160 ((max_label_len : ℚ) * 8 + 20)
    let bar_area : ℚ := 560
    let row_h : ℚ := 36
    let width := left_pad + bar_area + 140
    let height := 30 + 30 + row_h * all.length
    let max_value0 := listMax (all.map Prod.snd)
    let max_value := if max_value0 ≤ 0 then 1 else max_value0
    .chart width height max_value
      (all.map (fun row => ⟨row.1, row.2 / max_value * bar_area, row.2⟩))

/-- Python `d[k] = v`. -/
def dictInsert {α : Type} (d : List (String × α)) (k : String) (v : α) : List (String × α) :=
  if (d.lookup k).isSome then
    d.map (fun p => cond (p.1 == k) (k, v) p)
  else d ++ [(k, v)]

/-- A JSON value configuring regexes: absent, a single pattern string, or a
list of pattern strings (`normalize_regexes` raises on any other shape, which
the embedding excludes by construction). -/
inductive RegexSpec
  | null
  | str (s : String)
  | strList (l : List String)
  deriving DecidableEq

/-- Model of `normalize_regexes(raw)` from the source. -/
def normalize_regexes : RegexSpec → List String
  | .null => []
  | .str s => [s]
  | .strList l => l

/-- Assembly of `aux_regexes` in `main`: every explicit `aux_metrics` entry
is inserted first; then each `parse` entry is added only when its key is
neither the primary metric key nor already present. -/
def buildAuxRegexes (metricKey : String) (parseSection auxSection : List (String × RegexSpec)) :
    List (String × List String) :=
  parseSection.foldl
    (fun acc kv =>
      if kv.1 == metricKey then acc
      else if (acc.lookup kv.1).isSome then acc
      else dictInsert acc kv.1 (normalize_regexes kv.2))
    (auxSection.foldl (fun acc kv => dictInsert acc kv.1 (normalize_regexes kv.2)) [])

/-- The observable part of one completed `run_once` call. -/
structure RunRecord where
  exit_code : ℤ
  wall_seconds : ℚ
  primary_metric : Option ℚ
  aux_metrics : List (String × ℚ)
  deriving DecidableEq

/-- Outcome of spawning one run: completion or `subprocess.TimeoutExpired`. -/
inductive RunOutcome
  | timeout
  | completed (record : RunRecord)
  deriving DecidableEq

/-- One entry of the per-backend `measured_runs` list. -/
inductive MeasEntry
  | timeoutEntry (run_index : ℕ)
  | recordEntry (run_index : ℕ) (ok : Bool) (record : RunRecord)
  deriving DecidableEq

/-- The per-backend `summary` dictionary. -/
structure RowSummary where
  primary_metric : Option Summary
  wall_seconds : Option Summary
  success_runs : ℕ
  failed_runs : ℕ
  aux_metrics : List (String × Option Summary)
  median_vs_best : Option ℚ
  deriving DecidableEq

/-- One entry of `result_rows`. -/
structure ResultRow where
  name : String
  status : String
  command : String
  runs : List MeasEntry
  summary : RowSummary
  deriving DecidableEq

/-- The exceptions `main` can raise or re-raise. -/
inductive PyError
  | valueError (msg : String)
  | timeoutExpired (command : String)
  deriving DecidableEq

/-- One `subprocess.run` invocation (backend name, resolved command, phase,
1-based run index), recorded in program order. -/
structure SpawnEvent where
  backend : String
  command : String
  warmup : Bool
  run_index : ℕ
  deriving DecidableEq

/-- How the `main` process ends: an uncaught exception, or `return code`
with the `result_rows` accumulated at that point. -/
inductive Outcome
  | raised (e : PyError)
  | exited (code : ℤ) (rows : List ResultRow)
  deriving DecidableEq

/-- The result of running the orchestrator: every spawned process in order,
plus the terminal outcome. -/
structure MainResult where
  trace : List SpawnEvent
  outcome : Outcome
  deriving DecidableEq

/-- A command or environment-value template, parsed into literal runs and
`\x7bname\x7d` placeholders. -/
inductive TemplatePart
  | lit (s : String)
  | var (name : String)
  deriving DecidableEq

abbrev Template := List TemplatePart

/-- Rendering of a template back to its source syntax, for error messages. -/
def templateRaw : Template → String
  | [] => ""
  | .lit s :: rest => s ++ templateRaw rest
  | .var n :: rest => "\x7b" ++ n ++ "\x7d" ++ templateRaw rest

/-- Model of `template.format(**vars)`: substitute every placeholder, or fail
with the left-most undefined variable name, performing no partial
substitution. -/
def formatParts (t : Template) (vars : List (String × String)) : Except String String :=
  match t with
  | [] => .ok ""
  | .lit s :: rest => (formatParts rest vars).map (fun tail => s ++ tail)
  | .var n :: rest =>
    match vars.lookup n with
    | some v => (formatParts rest vars).map (fun tail => v ++ tail)
    | none => .error n

/-- Model of `format_command(template, vars)` from the source: the `KeyError` of
`str.format` becomes a `ValueError` naming the missing variable and the
offending template (the quotation marks of the source message are elided). -/
def format_command (template : Template) (vars : List (String × String)) :
    Except PyError String :=
  match formatParts template vars with
  | .ok s => .ok s
  | .error missing =>
    .error (.valueError ("missing template variable " ++ missing ++ " in command: " ++
      templateRaw template))

/-- Model of `parse_backend_filters(raw)` from the source. -/
def parse_backend_filters (raw : String) : List String :=
  ((raw.splitOn ",").map (fun item => pyLower (pyStrip item))).filter (fun s => !s.isEmpty)

/-- Substring containment on character lists (Python `token in name`). -/
def charsContain (needle : List Char) : List Char → Bool
  | [] => needle.isEmpty
  | c :: cs => needle.isPrefixOf (c :: cs) || charsContain needle cs

/-- Model of `backend_is_selected(name, filters)` from the source: an empty filter
list selects everything; otherwise a token must equal or be contained in the
lower-cased name. -/
def backend_is_selected (name : String) (filters : List String) : Bool :=
  filters.isEmpty ||
    filters.any (fun token =>
      token == pyLower name || charsContain token.toList (pyLower name).toList)

/-- One entry of the `backends` list of the configuration, together with its
scripted executor (`cwd` only affects path resolution and is elided). -/
structure Backend where
  name : String
  enabled : Bool
  command : Template
  env : List (String × Template)
  metric_regexes : RegexSpec
  parse : List (String × RegexSpec)
  aux_metrics : List (String × RegexSpec)
  warmupOutcome : ℕ → RunOutcome
  measuredOutcome : ℕ → RunOutcome

/-- The resolved configuration reaching the run loop of `main`. -/
structure Config where
  strict : Bool
  runs : ℕ
  warmup_runs : ℕ
  metricKey : String
  direction : String
  metric_fallback_to_wall_time : Bool
  vars : List (String × String)
  backendFilters : List String
  backends : List Backend

/-- The command-resolution loop of `main`: every enabled, filter-selected
backend command template is expanded — before any process is spawned — into
the `backend_commands` dictionary (same-named later entries overwrite earlier
ones); a missing name, a missing command or an expansion failure raises. -/
def buildCommands (vars : List (String × String)) (filters : List String) :
    List Backend → List (String × String) → Except PyError (List (String × String))
  | [], acc => .ok acc
  | b :: rest, acc =>
    if b.enabled = false then buildCommands vars filters rest acc
    else
      let name := pyStrip b.name
      if name.isEmpty then .error (.valueError "Each backend must have a non-empty name")
      else if !(backend_is_selected name filters) then buildCommands vars filters rest acc
      else if b.command.isEmpty then
        .error (.valueError ("Backend " ++ name ++ " is missing command"))
      else
        match format_command b.command vars with
        | .error e => .error e
        | .ok cmd => buildCommands vars filters rest (dictInsert acc name cmd)

/-- Expansion of the per-backend `env` values, each through `format_command`
(the inherited `os.environ` base is not observable and is elided). -/
def buildEnv (vars : List (String × String)) :
    List (String × Template) → Except PyError (List (String × String))
  | [] => .ok []
  | (k, v) :: rest =>
    match format_command v vars with
    | .error e => .error e
    | .ok s =>
      match buildEnv vars rest with
      | .error e => .error e
      | .ok tail => .ok ((k, s) :: tail)

/-- The mutable per-backend accumulators of the measured loop. -/
structure MeasState where
  measured_runs : List MeasEntry
  success_metrics : List ℚ
  success_wall : List ℚ
  aux_values : List (String × List ℚ)
  failed_runs : ℕ
  deriving DecidableEq

def initMeasState : MeasState := ⟨[], [], [], [], 0⟩

/-- Model of `aux_values.setdefault(key, []).append(val)` for every auxiliary metric
of a successful run. -/
def auxAppend (acc : List (String × List ℚ)) : List (String × ℚ) → List (String × List ℚ)
  | [] => acc
  | (k, v) :: rest =>
    auxAppend
      (if (acc.lookup k).isSome then
        acc.map (fun p => cond (p.1 == k) (p.1, p.2 ++ [v]) p)
      else acc ++ [(k, [v])])
      rest

/-- Result of the measured loop: an early strict-mode halt (`return 2`), or
normal completion. -/
inductive MeasResult
  | halted (st : MeasState)
  | finished (st : MeasState)
  deriving DecidableEq

/-- The warmup loop for one backend: each run record is discarded; a timeout
re-raises under strict mode (before anything is recorded) and is merely
logged otherwise. Arguments: remaining runs, next 1-based index, spawn trace
so far. -/
def warmupLoop (strict : Bool) (name command : String) (outcome : ℕ → RunOutcome) :
    ℕ → ℕ → List SpawnEvent → List SpawnEvent × Option PyError
  | 0, _, trace => (trace, none)
  | remaining + 1, i, trace =>
    let trace2 := trace ++ [⟨name, command, true, i⟩]
    match outcome i with
    | .timeout =>
      if strict then (trace2, some (.timeoutExpired command))
      else warmupLoop strict name command outcome remaining (i + 1) trace2
    | .completed _ => warmupLoop strict name command outcome remaining (i + 1) trace2

/-- The measured loop for one backend: a timeout appends a failed record and
halts under strict mode; a completed run is classified
`ok = (exit_code == 0 and primary_metric is not None)` and appended; a
non-ok run halts under strict mode; otherwise iteration continues. -/
def measuredLoop (strict : Bool) (name command : String) (outcome : ℕ → RunOutcome) :
    ℕ → ℕ → MeasState → List SpawnEvent → List SpawnEvent × MeasResult
  | 0, _, st, trace => (trace, .finished st)
  | remaining + 1, i, st, trace =>
    let trace2 := trace ++ [⟨name, command, false, i⟩]
    match outcome i with
    | .timeout =>
      let st2 : MeasState :=
        { st with
          failed_runs := st.failed_runs + 1
          measured_runs := st.measured_runs ++ [.timeoutEntry i] }
      if strict then (trace2, .halted st2)
      else measuredLoop strict name command outcome remaining (i + 1) st2 trace2
    | .completed record =>
      let ok := record.exit_code == 0 && record.primary_metric.isSome
      let stRec : MeasState :=
        { st with measured_runs := st.measured_runs ++ [.recordEntry i ok record] }
      if ok then
        measuredLoop strict name command outcome remaining (i + 1)
          { stRec with
            success_metrics := stRec.success_metrics ++ [record.primary_metric.getD 0]
            success_wall := stRec.success_wall ++ [record.wall_seconds]
            aux_values := auxAppend stRec.aux_values record.aux_metrics }
          trace2
      else
        let st2 : MeasState := { stRec with failed_runs := stRec.failed_runs + 1 }
        if strict then (trace2, .halted st2)
        else measuredLoop strict name command outcome remaining (i + 1) st2 trace2

/-- The `result_rows` entry appended for a backend whose measured loop
completed. -/
def mkRow (sqrtQ : ℚ → ℚ) (name command : String) (st : MeasState) : ResultRow :=
  { name := name
    status := if st.success_metrics.isEmpty then "failed" else "ok"
    command := command
    runs := st.measured_runs
    summary :=
      { primary_metric := summarize sqrtQ st.success_metrics
        wall_seconds := summarize sqrtQ st.success_wall
        success_runs := st.success_metrics.length
        failed_runs := st.failed_runs
        aux_metrics := st.aux_values.map (fun p => (p.1, summarize sqrtQ p.2))
        median_vs_best := none } }

/-- The median primary metric of a row, when defined. -/
def rowMedian (r : ResultRow) : Option ℚ :=
  r.summary.primary_metric.map Summary.median

/-- The guard selecting rows that participate in ranking and ratios. -/
def isGood (r : ResultRow) : Bool :=
  r.status == "ok" && (rowMedian r).isSome

/-- Model of `ranking_key(direction, value)` from the source. -/
def ranking_key (direction : String) (value : ℚ) : ℚ :=
  if direction == "higher" then -value else value

/-- The sort key of a row in the report ranking. -/
def rankKeyOf (direction : String) (r : ResultRow) : ℚ :=
  ranking_key direction ((rowMedian r).getD 0)

/-- Model of `best_median` from the post-loop pass of `main`: the maximum
(respectively minimum) good median for direction `higher` (`lower`); `none`
when no backend ranked. -/
def bestMedian (direction : String) (rows : List ResultRow) : Option ℚ :=
  let good := rows.filter isGood
  if good.isEmpty then none
  else
    let medians := good.map (fun r => (rowMedian r).getD 0)
    some (if direction == "higher" then listMax medians else listMin medians)

/-- The ratio written into `summary["median_vs_best"]`. -/
def ratioOf (direction : String) (best med : ℚ) : ℚ :=
  if direction == "higher" then med / best
  else if med = 0 then 0 else best / med

/-- The post-loop ranking pass of `main`: when some backend ranked and the
best median is positive, every good row receives its relative-to-best ratio;
otherwise the rows are left untouched (ratios omitted). -/
def applyRatios (direction : String) (rows : List ResultRow) : List ResultRow :=
  match bestMedian direction rows with
  | none => rows
  | some best =>
    if 0 < best then
      rows.map (fun r =>
        if isGood r then
          { r with summary := { r.summary with
              median_vs_best := some (ratioOf direction best ((rowMedian r).getD 0)) } }
        else r)
    else rows

/-- The ranked list of the reports: good rows sorted ascending by the
direction-aware ranking key (a stable sort, as in Python). -/
def rankedRows (direction : String) (rows : List ResultRow) : List ResultRow :=
  @List.insertionSort ResultRow
    (fun a b => rankKeyOf direction a ≤ rankKeyOf direction b)
    (fun a b => inferInstanceAs (Decidable (rankKeyOf direction a ≤ rankKeyOf direction b)))
    (rows.filter isGood)

/-- The primary-metric regex list of a backend: the explicit `metric_regexes`
entry, or the `parse` entry for the metric key when the former is absent. -/
def resolvedMetricRegexes (cfg : Config) (b : Backend) : List String :=
  let mr0 := normalize_regexes b.metric_regexes
  if mr0.isEmpty then normalize_regexes ((b.parse.lookup cfg.metricKey).getD .null)
  else mr0

/-- The execution loop of `main` over the backends, threading the spawn
trace: disabled or unselected backends are skipped; an environment-expansion
failure or a missing-regex configuration raises; a strict-mode warmup timeout
re-raises; a strict-mode measured failure surfaces as `return 2` with the
rows accumulated so far (the row of the halting backend is never appended); after
a completed loop the ranking pass runs and the process exits 0. -/
def mainLoop (cfg : Config) (commands : List (String × String)) (sqrtQ : ℚ → ℚ) :
    List Backend → List ResultRow → List SpawnEvent → MainResult
  | [], rows, trace => ⟨trace, .exited 0 (applyRatios cfg.direction rows)⟩
  | b :: rest, rows, trace =>
    if b.enabled = false then mainLoop cfg commands sqrtQ rest rows trace
    else
      match commands.lookup b.name with
      | none => mainLoop cfg commands sqrtQ rest rows trace
      | some command =>
        match buildEnv cfg.vars b.env with
        | .error e => ⟨trace, .raised e⟩
        | .ok _env =>
          if (resolvedMetricRegexes cfg b).isEmpty && !cfg.metric_fallback_to_wall_time then
            ⟨trace, .raised (.valueError ("Backend " ++ b.name ++
              " has no metric regexes for " ++ cfg.metricKey ++ " and fallback is disabled."))⟩
          else
            let _aux_regexes := buildAuxRegexes cfg.metricKey b.parse b.aux_metrics
            match warmupLoop cfg.strict b.name command b.warmupOutcome cfg.warmup_runs 1 trace with
            | (trace2, some e) => ⟨trace2, .raised e⟩
            | (trace2, none) =>
              match measuredLoop cfg.strict b.name command b.measuredOutcome cfg.runs 1
                  initMeasState trace2 with
              | (trace3, .halted _st) => ⟨trace3, .exited 2 rows⟩
              | (trace3, .finished st) =>
                mainLoop cfg commands sqrtQ rest (rows ++ [mkRow sqrtQ b.name command st]) trace3

/-- Model of `main(config)` after configuration loading (file lookup, `--dry-run` and
report writing are I/O and not modelled): exit 1 when no backends are
configured or none matched; otherwise resolve every command up front and run
the loop. -/
def mainModel (cfg : Config) (sqrtQ : ℚ → ℚ) : MainResult :=
  if cfg.backends.isEmpty then ⟨[], .exited 1 []⟩
  else
    match buildCommands cfg.vars cfg.backendFilters cfg.backends [] with
    | .error e => ⟨[], .raised e⟩
    | .ok commands =>
      if commands.isEmpty then ⟨[], .exited 1 []⟩
      else mainLoop cfg commands sqrtQ cfg.backends [] []

/-- The executor classification used by `main` for measured runs. -/
def isOkOutcome : RunOutcome → Bool
  | .timeout => false
  | .completed r => r.exit_code == 0 && r.primary_metric.isSome

/-- A successful run: exit 0, one wall second, primary metric 5. -/
def okRecord : RunRecord := ⟨0, 1, some 5, []⟩

/-- An ordinary failed run: exit 1, no metric. -/
def badRecord : RunRecord := ⟨1, 1, none, []⟩

def cexB1 : Backend :=
  ⟨"b1", true, [.lit "run1"], [], .str "x", [], [],
   fun _ => .completed okRecord, fun _ => .completed okRecord⟩

def cexB2 : Backend :=
  ⟨"b2", true, [.lit "run2"], [], .str "x", [], [],
   fun _ => .completed okRecord, fun _ => .completed badRecord⟩

def cexB3 : Backend :=
  ⟨"b3", true, [.lit "run3"], [], .str "x", [], [],
   fun _ => .completed okRecord, fun _ => .completed okRecord⟩

/-- Strict mode, one measured run, no warmups, three backends; the second
backend fails its first (and only) measured run. -/
def cexCfgC1 : Config :=
  ⟨true, 1, 0, "m", "higher", false, [], [], [cexB1, cexB2, cexB3]⟩

/-- The exit code of the model run, when it exited. -/
def MainResult.exitCode : MainResult → Option ℤ
  | ⟨_, .exited code _⟩ => some code
  | ⟨_, .raised _⟩ => none

/-- The names of the result rows, when the model run exited. -/
def MainResult.rowNames : MainResult → List String
  | ⟨_, .exited _ rows⟩ => rows.map ResultRow.name
  | ⟨_, .raised _⟩ => []

def c10BA : Backend :=
  ⟨"x", true, [.lit "cmdA"], [], .str "r", [], [],
   fun _ => .completed okRecord, fun _ => .completed okRecord⟩

def c10BB : Backend :=
  ⟨"x", true, [.lit "cmdB"], [], .str "r", [], [],
   fun _ => .completed okRecord, fun _ => .completed okRecord⟩

/-- Lenient mode, one measured run, no warmups, two backends that share the
name `x` but render different commands. -/
def c10Cfg : Config :=
  ⟨false, 1, 0, "m", "higher", false, [], [], [c10BA, c10BB]⟩

def c2B1 : Backend :=
  ⟨"b1", true, [.lit "run1"], [], .str "x", [], [],
   fun _ => .completed okRecord, fun _ => .completed okRecord⟩

/-- A backend whose environment value references the undefined variable
`q`. -/
def c2B2 : Backend :=
  ⟨"b2", true, [.lit "run2"], [("K", [.var "q"])], .str "x", [], [],
   fun _ => .completed okRecord, fun _ => .completed okRecord⟩

def c2Cfg : Config :=
  ⟨true, 1, 0, "m", "higher", false, [], [], [c2B1, c2B2]⟩

/-- A backend whose command template references the undefined variable
`q`. -/
def c2BadB : Backend :=
  ⟨"bb", true, [.var "q"], [], .str "x", [], [],
   fun _ => .completed okRecord, fun _ => .completed okRecord⟩

def c2BadCfg : Config :=
  ⟨true, 1, 0, "m", "higher", false, [], [], [c2BadB]⟩

/-- A result row with the given name and a constant summary at the given
median, as produced for a backend whose single successful run reported that
metric. -/
def mkTestRow (name : String) (med : ℚ) : ResultRow :=
  { name := name
    status := "ok"
    command := "c"
    runs := []
    summary :=
      { primary_metric := some ⟨med, med, med, med, med, 0⟩
        wall_seconds := none
        success_runs := 1
        failed_runs := 0
        aux_metrics := []
        median_vs_best := none } }

def rowA50 : ResultRow := mkTestRow "A" 50

def rowB100 : ResultRow := mkTestRow "B" 100

def rowN1 : ResultRow := mkTestRow "n1" (-2)

def rowN2 : ResultRow := mkTestRow "n2" (-1)

/-- A single-backend strict configuration whose warmup run times out. -/
def c7TimeoutB : Backend :=
  ⟨"w", true, [.lit "cw"], [], .str "x", [], [],
   fun _ => .timeout, fun _ => .timeout⟩

/-- A single-backend strict configuration whose measured run times out. -/
def c7MeasB : Backend :=
  ⟨"w", true, [.lit "cw"], [], .str "x", [], [],
   fun _ => .completed okRecord, fun _ => .timeout⟩

def c7Cfg : Config :=
  ⟨true, 1, 1, "m", "higher", false, [], [], [c7TimeoutB]⟩

/-! The theorems: claim verdicts, their supporting lemmas, and closed
witness instances. -/

theorem foldl_min_le_init (xs : List ℚ) (a : ℚ) : xs.foldl min a ≤ a := by
  induction xs generalizing a with
  | nil => simp
  | cons x xs ih => exact le_trans (ih (min a x)) (min_le_left a x)

theorem foldl_min_le_mem (xs : List ℚ) (a x : ℚ) (hx : x ∈ xs) : xs.foldl min a ≤ x := by
  induction xs generalizing a with
  | nil => cases hx
  | cons y ys ih =>
    rcases List.mem_cons.mp hx with rfl | hmem
    · exact le_trans (foldl_min_le_init ys (min a x)) (min_le_right a x)
    · exact ih (min a y) hmem

theorem listMin_le_of_mem {l : List ℚ} {x : ℚ} (hx : x ∈ l) : listMin l ≤ x := by
  cases l with
  | nil => cases hx
  | cons y ys =>
    rcases List.mem_cons.mp hx with rfl | hmem
    · exact foldl_min_le_init ys x
    · exact foldl_min_le_mem ys y x hmem

theorem init_le_foldl_max (xs : List ℚ) (a : ℚ) : a ≤ xs.foldl max a := by
  induction xs generalizing a with
  | nil => simp
  | cons x xs ih => exact le_trans (le_max_left a x) (ih (max a x))

theorem mem_le_foldl_max (xs : List ℚ) (a x : ℚ) (hx : x ∈ xs) : x ≤ xs.foldl max a := by
  induction xs generalizing a with
  | nil => cases hx
  | cons y ys ih =>
    rcases List.mem_cons.mp hx with rfl | hmem
    · exact le_trans (le_max_right a x) (init_le_foldl_max ys (max a x))
    · exact ih (max a y) hmem

theorem le_listMax_of_mem {l : List ℚ} {x : ℚ} (hx : x ∈ l) : x ≤ listMax l := by
  cases l with
  | nil => cases hx
  | cons y ys =>
    rcases List.mem_cons.mp hx with rfl | hmem
    · exact init_le_foldl_max ys x
    · exact mem_le_foldl_max ys y x hmem

theorem getD_mem_of_lt (l : List ℚ) (i : ℕ) (h : i < l.length) : l.getD i 0 ∈ l := by
  rw [List.getD_eq_getElem l 0 h]
  exact List.getElem_mem h

theorem pySorted_perm (l : List ℚ) : List.Perm (pySorted l) l :=
  List.perm_insertionSort _ l

theorem pySorted_length (l : List ℚ) : (pySorted l).length = l.length :=
  (pySorted_perm l).length_eq

/-- C5. `percentile(values, p)` on a non-empty series returns the minimum for
`p ≤ 0`, the maximum for `p ≥ 100`, and otherwise the linear interpolation
between the order statistics at `floor k` and `ceil k` of the sorted sequence
with `k = (n-1)·p/100`; in particular `percentile(values, 0) = min(values)`
and `percentile(values, 100) = max(values)`. -/
theorem percentile_matches_spec (values : List ℚ) (p : ℚ) (h : values ≠ []) :
    (p ≤ 0 → percentile values p = some (listMin values)) ∧
    (100 ≤ p → percentile values p = some (listMax values)) ∧
    (0 < p → p < 100 → percentile values p = some (specPercentileInterp values p)) ∧
    percentile values 0 = some (listMin values) ∧
    percentile values 100 = some (listMax values) := by
  obtain ⟨v, vs, rfl⟩ : ∃ v vs, values = v :: vs := by
    cases values with
    | nil => exact absurd rfl h
    | cons v vs => exact ⟨v, vs, rfl⟩
  have hlow : ∀ q : ℚ, q ≤ 0 → percentile (v :: vs) q = some (listMin (v :: vs)) := by
    intro q hq
    simp [percentile, hq]
  have hhigh : ∀ q : ℚ, 100 ≤ q → percentile (v :: vs) q = some (listMax (v :: vs)) := by
    intro q hq
    have hq0 : ¬ q ≤ 0 := by linarith
    simp [percentile, hq0, hq]
  refine ⟨hlow p, hhigh p, ?_, hlow 0 le_rfl, hhigh 100 le_rfl⟩
  intro hp0 hp100
  have hq0 : ¬ p ≤ 0 := by linarith
  have hq100 : ¬ 100 ≤ p := by linarith
  have hlen : (pySorted (v :: vs)).length = (v :: vs).length := pySorted_length _
  set s := pySorted (v :: vs) with hs
  have hn1 : 1 ≤ s.length := by rw [hlen]; simp
  set k : ℚ := ((s.length : ℚ) - 1) * (p / 100) with hk
  have hk0 : 0 ≤ k := by
    have h1 : (1 : ℚ) ≤ (s.length : ℚ) := by exact_mod_cast hn1
    have h2 : (0 : ℚ) ≤ p / 100 := by positivity
    exact mul_nonneg (by linarith) h2
  have htrunc : truncInt k = ⌊k⌋ := by simp [truncInt, hk0]
  have hkspec : ((((v :: vs).length : ℚ) - 1) * p / 100) = k := by
    rw [hk, ← hlen]; ring
  simp only [percentile, hq0, if_false, hq100, specPercentileInterp, ← hs, hkspec, htrunc]
  rcases eq_or_lt_of_le hn1 with hone | htwo
  · -- single-element series: k = 0, both sides are the sole order statistic
    have hkz : k = 0 := by
      rw [hk, ← hone]
      norm_num
    have hupper : min (⌊k⌋ + 1) ((s.length : ℤ) - 1) = 0 := by
      rw [hkz, ← hone]
      norm_num
    rw [hkz] at hupper ⊢
    norm_num at hupper ⊢
    rw [hupper]
    norm_num
  · -- at least two elements: upper = lower + 1
    have hklt : k < (s.length : ℚ) - 1 := by
      have hp1 : p / 100 < 1 := by linarith
      have hpos : (0 : ℚ) < (s.length : ℚ) - 1 := by
        have : (2 : ℚ) ≤ (s.length : ℚ) := by exact_mod_cast htwo
        linarith
      calc k = ((s.length : ℚ) - 1) * (p / 100) := hk
        _ < ((s.length : ℚ) - 1) * 1 := by
            exact mul_lt_mul_of_pos_left hp1 hpos
        _ = (s.length : ℚ) - 1 := by ring
    have hfll : ⌊k⌋ < (s.length : ℤ) - 1 := by
      apply Int.floor_lt.mpr
      push_cast
      exact hklt
    have hupper : min (⌊k⌋ + 1) ((s.length : ℤ) - 1) = ⌊k⌋ + 1 :=
      min_eq_left (by omega)
    have hne : ¬ (⌊k⌋ = min (⌊k⌋ + 1) ((s.length : ℤ) - 1)) := by
      rw [hupper]; omega
    rw [if_neg hne, hupper]
    by_cases hint : k = (⌊k⌋ : ℚ)
    · -- k is an integer: the fraction vanishes and ceil k = floor k
      have hceil : ⌈k⌉ = ⌊k⌋ := by
        rw [hint, Int.ceil_intCast, Int.floor_intCast]
      rw [hceil]
      have hfz : k - (⌊k⌋ : ℚ) = 0 := by rw [← hint]; ring
      rw [hfz]
      ring_nf
    · -- k is not an integer: ceil k = floor k + 1 and the two interpolation
      -- expressions agree by ring arithmetic
      have hflt : (⌊k⌋ : ℚ) < k := lt_of_le_of_ne (Int.floor_le k) (Ne.symm hint)
      have hceil : ⌈k⌉ = ⌊k⌋ + 1 := by
        refine le_antisymm ?_ ?_
        · apply Int.ceil_le.mpr
          push_cast
          exact le_of_lt (Int.lt_floor_add_one k)
        · have : ⌊k⌋ < ⌈k⌉ := Int.lt_ceil.mpr hflt
          omega
      rw [hceil]
      ring_nf

theorem length_mul_min_le_sum (l : List ℚ) (m : ℚ) (hm : ∀ x ∈ l, m ≤ x) :
    (l.length : ℚ) * m ≤ l.sum := by
  induction l with
  | nil => simp
  | cons x xs ih =>
    have hx : m ≤ x := hm x (List.mem_cons_self x xs)
    have hxs : (xs.length : ℚ) * m ≤ xs.sum :=
      ih (fun y hy => hm y (List.mem_cons_of_mem x hy))
    simp only [List.length_cons, List.sum_cons]
    push_cast
    linarith

theorem sum_le_length_mul_max (l : List ℚ) (M : ℚ) (hM : ∀ x ∈ l, x ≤ M) :
    l.sum ≤ (l.length : ℚ) * M := by
  induction l with
  | nil => simp
  | cons x xs ih =>
    have hx : x ≤ M := hM x (List.mem_cons_self x xs)
    have hxs : xs.sum ≤ (xs.length : ℚ) * M :=
      ih (fun y hy => hM y (List.mem_cons_of_mem x hy))
    simp only [List.length_cons, List.sum_cons]
    push_cast
    linarith

theorem pyMean_bounds (data : List ℚ) (h : data ≠ []) :
    listMin data ≤ pyMean data ∧ pyMean data ≤ listMax data := by
  have hpos : 0 < data.length := List.length_pos.mpr h
  have hposQ : (0 : ℚ) < (data.length : ℚ) := by exact_mod_cast hpos
  constructor
  · rw [pyMean, le_div_iff₀ hposQ]
    have := length_mul_min_le_sum data (listMin data) (fun x hx => listMin_le_of_mem hx)
    linarith
  · rw [pyMean, div_le_iff₀ hposQ]
    have := sum_le_length_mul_max data (listMax data) (fun x hx => le_listMax_of_mem hx)
    linarith

theorem pyMedian_bounds (data : List ℚ) (h : data ≠ []) :
    listMin data ≤ pyMedian data ∧ pyMedian data ≤ listMax data := by
  have hpos : 0 < data.length := List.length_pos.mpr h
  have hlen : (pySorted data).length = data.length := pySorted_length data
  have hspos : 0 < (pySorted data).length := by omega
  have hmem : ∀ i, i < (pySorted data).length →
      listMin data ≤ (pySorted data).getD i 0 ∧ (pySorted data).getD i 0 ≤ listMax data := by
    intro i hi
    have hm : (pySorted data).getD i 0 ∈ data :=
      (pySorted_perm data).mem_iff.mp (getD_mem_of_lt _ i hi)
    exact ⟨listMin_le_of_mem hm, le_listMax_of_mem hm⟩
  rw [pyMedian]
  by_cases hodd : (pySorted data).length % 2 = 1
  · have hi : (pySorted data).length / 2 < (pySorted data).length :=
      Nat.div_lt_self hspos (by norm_num)
    have := hmem _ hi
    simp only [hodd, if_pos]
    exact this
  · have hi2 : (pySorted data).length / 2 < (pySorted data).length :=
      Nat.div_lt_self hspos (by norm_num)
    have hi1 : (pySorted data).length / 2 - 1 < (pySorted data).length := by omega
    have h1 := hmem _ hi1
    have h2 := hmem _ hi2
    simp only [hodd, if_neg, if_false]
    constructor
    · have := h1.1; have := h2.1; linarith
    · have := h1.2; have := h2.2; linarith

/-- C6. `summarize` on the empty series returns the empty summary (no error);
on any non-empty series it returns a summary with `min ≤ median ≤ max`,
`min ≤ mean ≤ max`, and `stdev = 0` for a single-element series (for every
abstracted square-root function, since the source returns `0.0` from the
explicit single-element branch without computing a standard deviation). -/
theorem summarize_matches_spec (sqrtQ : ℚ → ℚ) (values : List ℚ) (h : values ≠ []) :
    summarize sqrtQ [] = none ∧
    ∃ s, summarize sqrtQ values = some s ∧
      s.min ≤ s.median ∧ s.median ≤ s.max ∧
      s.min ≤ s.mean ∧ s.mean ≤ s.max ∧
      (values.length = 1 → s.stdev = 0) := by
  obtain ⟨v, vs, rfl⟩ : ∃ v vs, values = v :: vs := by
    cases values with
    | nil => exact absurd rfl h
    | cons v vs => exact ⟨v, vs, rfl⟩
  refine ⟨rfl, ?_⟩
  refine ⟨_, rfl, ?_, ?_, ?_, ?_, ?_⟩
  · exact (pyMedian_bounds (v :: vs) h).1
  · exact (pyMedian_bounds (v :: vs) h).2
  · exact (pyMean_bounds (v :: vs) h).1
  · exact (pyMean_bounds (v :: vs) h).2
  · intro hone
    simp only [hone]
    norm_num

/-- C3. Metric extraction tries the patterns in declaration order and returns
the first capture that parses as a float; a match whose capture does not parse
is skipped in favour of the next pattern; no numeric capture at all yields
`none` (a total function — never an error). `List.findSome?` composed with
`Option.bind` is exactly that first-numeric-capture semantics. The second and
third conjuncts are the spec example: patterns `nope:(\d+)`, `tok:(\d+\.?\d*)`
on `tok:12.5` give `12.5`, and a text matching neither gives `none`. -/
theorem parse_numeric_metric_matches_spec :
    (∀ (text : String) (regexes : List RegexMatcher),
        parse_numeric_metric text regexes =
          regexes.findSome? (fun pattern => (pattern text).bind pyFloat)) ∧
    parse_numeric_metric "tok:12.5" [nopeMatcher, tokMatcher] = some (25 / 2) ∧
    parse_numeric_metric "no match here" [nopeMatcher, tokMatcher] = none := by
  have hfind : ∀ (text : String) (regexes : List RegexMatcher),
      parse_numeric_metric text regexes =
        regexes.findSome? (fun pattern => (pattern text).bind pyFloat) := by
    intro text regexes
    induction regexes with
    | nil => rfl
    | cons p rest ih =>
      simp only [parse_numeric_metric, List.findSome?_cons]
      cases hp : p text with
      | none => simpa using ih
      | some cap =>
        cases hc : pyFloat cap with
        | none => simpa [hc] using ih
        | some v => simp [hc]
  have h1 : nopeMatcher "tok:12.5" = none := by decide
  have h2 : tokMatcher "tok:12.5" = some "12.5" := by decide
  have h3 : pyFloat "12.5" = some (25 / 2) := by
    have hparts : pyFloatParts "12.5" = some (false, ['1', '2'], ['5']) := by decide
    have hn1 : natOfDigits ['1', '2'] = 12 := by decide
    have hn2 : natOfDigits ['5'] = 5 := by decide
    simp only [pyFloat, hparts, Option.map_some]
    norm_num [hn1, hn2]
  have h4 : nopeMatcher "no match here" = none := by decide
  have h5 : tokMatcher "no match here" = none := by decide
  refine ⟨hfind, ?_, ?_⟩
  · rw [hfind]
    simp [List.findSome?_cons, h1, h2, h3]
  · rw [hfind]
    simp [List.findSome?_cons, h4, h5]

/-- C8. For every non-empty row list — including all-zero or negative
medians — the chart renderer emits a `chart` whose scale denominator is
strictly positive (so the bar-width division never divides by zero), renders
exactly one bar per row, and substitutes `1.0` for the scale exactly when the
largest median is not positive. -/
theorem build_svg_chart_never_divides_by_zero (rows : List (String × ℚ)) (h : rows ≠ []) :
    ∃ w ht scale bars, build_svg_chart rows = .chart w ht scale bars ∧
      0 < scale ∧ bars.length = rows.length ∧
      (listMax (rows.map Prod.snd) ≤ 0 → scale = 1) := by
  obtain ⟨r, rs, rfl⟩ : ∃ r rs, rows = r :: rs := by
    cases rows with
    | nil => exact absurd rfl h
    | cons r rs => exact ⟨r, rs, rfl⟩
  simp only [build_svg_chart, List.map_cons]
  refine ⟨_, _, _, _, rfl, ?_, by simp, ?_⟩
  · by_cases hc : listMax (r.2 :: List.map Prod.snd rs) ≤ 0
    · rw [if_pos hc]
      norm_num
    · rw [if_neg hc]
      push_neg at hc
      exact hc
  · intro hm
    rw [if_pos hm]

theorem lookup_map_overwrite {α : Type} (d : List (String × α)) (k : String) (v : α)
    (h : (d.lookup k).isSome) :
    (d.map (fun p => cond (p.1 == k) (k, v) p)).lookup k = some v := by
  induction d with
  | nil => simp [List.lookup] at h
  | cons p rest ih =>
    by_cases hp : p.1 = k
    · have hbeq : (p.1 == k) = true := beq_iff_eq.mpr hp
      simp [List.lookup, hbeq]
    · have hbeq : (p.1 == k) = false := beq_eq_false_iff_ne.mpr hp
      have hkp : (k == p.1) = false := beq_eq_false_iff_ne.mpr (Ne.symm hp)
      simp only [List.lookup, hkp] at h
      simp [List.lookup, hbeq, hkp, ih h]

theorem lookup_append_single {α : Type} (d : List (String × α)) (k : String) (v : α)
    (h : d.lookup k = none) :
    (d ++ [(k, v)]).lookup k = some v := by
  induction d with
  | nil => simp [List.lookup]
  | cons p rest ih =>
    by_cases hp : k = p.1
    · simp [List.lookup, hp] at h
    · have hkp : (k == p.1) = false := beq_eq_false_iff_ne.mpr hp
      simp only [List.lookup, hkp] at h
      simp [List.lookup, hkp, ih h]

theorem dictInsert_lookup_self {α : Type} (d : List (String × α)) (k : String) (v : α) :
    (dictInsert d k v).lookup k = some v := by
  rw [dictInsert]
  by_cases h : (d.lookup k).isSome
  · rw [if_pos h]
    exact lookup_map_overwrite d k v h
  · rw [if_neg h]
    exact lookup_append_single d k v (Option.not_isSome_iff_eq_none.mp h)

theorem lookup_map_overwrite_ne {α : Type} (d : List (String × α)) (k k' : String) (v : α)
    (hne : k' ≠ k) :
    (d.map (fun p => cond (p.1 == k) (k, v) p)).lookup k' = d.lookup k' := by
  induction d with
  | nil => simp
  | cons p rest ih =>
    by_cases hp : p.1 = k
    · have hk : (k' == k) = false := beq_eq_false_iff_ne.mpr hne
      have hkp : (k' == p.1) = false := beq_eq_false_iff_ne.mpr (hp ▸ hne)
      have hbeq : (p.1 == k) = true := beq_iff_eq.mpr hp
      simp [List.lookup, hbeq, hk, hkp, ih]
    · have hbeq : (p.1 == k) = false := beq_eq_false_iff_ne.mpr hp
      by_cases hk : k' = p.1
      · have : (k' == p.1) = true := beq_iff_eq.mpr hk
        simp [List.lookup, hbeq, this]
      · have : (k' == p.1) = false := beq_eq_false_iff_ne.mpr hk
        simp [List.lookup, hbeq, this, ih]

theorem lookup_append_single_ne {α : Type} (d : List (String × α)) (k k' : String) (v : α)
    (hne : k' ≠ k) : (d ++ [(k, v)]).lookup k' = d.lookup k' := by
  induction d with
  | nil =>
    have : (k' == k) = false := beq_eq_false_iff_ne.mpr hne
    simp [List.lookup, this]
  | cons p rest ih =>
    by_cases hk : k' = p.1
    · simp [List.lookup, hk]
    · have : (k' == p.1) = false := beq_eq_false_iff_ne.mpr hk
      simp only [List.cons_append, List.lookup, this]
      exact ih

theorem dictInsert_lookup_ne {α : Type} (d : List (String × α)) (k k' : String) (v : α)
    (hne : k' ≠ k) : (dictInsert d k v).lookup k' = d.lookup k' := by
  rw [dictInsert]
  by_cases h : (d.lookup k).isSome
  · rw [if_pos h]
    exact lookup_map_overwrite_ne d k k' v hne
  · rw [if_neg h]
    exact lookup_append_single_ne d k k' v hne

theorem mem_fst_of_lookup_isSome {α : Type} (l : List (String × α)) (k : String)
    (h : (l.lookup k).isSome) : k ∈ l.map Prod.fst := by
  induction l with
  | nil => simp [List.lookup] at h
  | cons p rest ih =>
    by_cases hk : k = p.1
    · simp [hk]
    · have hbeq : (k == p.1) = false := beq_eq_false_iff_ne.mpr hk
      simp only [List.lookup, hbeq] at h
      simp [ih h]

theorem lookup_eq_some_of_mem {α : Type} (l : List (String × α)) (k : String) (v : α)
    (hnd : (l.map Prod.fst).Nodup) (hmem : (k, v) ∈ l) : l.lookup k = some v := by
  induction l with
  | nil => cases hmem
  | cons p rest ih =>
    rw [List.map_cons, List.nodup_cons] at hnd
    rcases List.mem_cons.mp hmem with rfl | hmem2
    · simp [List.lookup]
    · have hk : k ≠ p.1 := by
        intro heq2
        exact hnd.1 (heq2 ▸ List.mem_map.mpr ⟨(k, v), hmem2, rfl⟩)
      have hbeq : (k == p.1) = false := beq_eq_false_iff_ne.mpr hk
      simp only [List.lookup, hbeq]
      exact ih hnd.2 hmem2

theorem auxFold_lookup (aux : List (String × RegexSpec)) (acc : List (String × List String))
    (hnd : (aux.map Prod.fst).Nodup) (k : String) :
    ((aux.foldl (fun acc kv => dictInsert acc kv.1 (normalize_regexes kv.2)) acc).lookup k) =
      (match aux.lookup k with
       | some v => some (normalize_regexes v)
       | none => acc.lookup k) := by
  induction aux generalizing acc with
  | nil => simp [List.lookup]
  | cons p rest ih =>
    rw [List.foldl_cons]
    rw [List.map_cons, List.nodup_cons] at hnd
    by_cases hk : k = p.1
    · subst hk
      have hrest : rest.lookup p.1 = none := by
        cases hlk : rest.lookup p.1 with
        | none => rfl
        | some w =>
          exact absurd (mem_fst_of_lookup_isSome rest p.1 (by simp [hlk])) hnd.1
      rw [ih _ hnd.2, hrest]
      simp [List.lookup, dictInsert_lookup_self]
    · have hbeq : (k == p.1) = false := beq_eq_false_iff_ne.mpr hk
      rw [ih _ hnd.2]
      simp only [List.lookup, hbeq]
      cases rest.lookup k with
      | none => simp [dictInsert_lookup_ne _ _ _ _ hk]
      | some w => simp

theorem parseFold_lookup (metricKey : String) (ps : List (String × RegexSpec))
    (acc : List (String × List String)) (hnd : (ps.map Prod.fst).Nodup) (k : String) :
    ((ps.foldl
        (fun acc kv =>
          if kv.1 == metricKey then acc
          else if (acc.lookup kv.1).isSome then acc
          else dictInsert acc kv.1 (normalize_regexes kv.2))
        acc).lookup k) =
      (match acc.lookup k with
       | some v => some v
       | none =>
         if k = metricKey then none else (ps.lookup k).map normalize_regexes) := by
  induction ps generalizing acc with
  | nil =>
    rw [List.foldl_nil]
    cases hacc : acc.lookup k with
    | none => simp [List.lookup, ite_self]
    | some v => rfl
  | cons p rest ih =>
    rw [List.foldl_cons]
    rw [List.map_cons, List.nodup_cons] at hnd
    by_cases hm : p.1 = metricKey
    · have hbeq : (p.1 == metricKey) = true := beq_iff_eq.mpr hm
      rw [if_pos hbeq, ih _ hnd.2]
      cases hacc : acc.lookup k with
      | some v => rfl
      | none =>
        by_cases hkm : k = metricKey
        · simp [hkm]
        · have hk : (k == p.1) = false := beq_eq_false_iff_ne.mpr (by rw [hm]; exact hkm)
          simp [hkm, List.lookup, hk]
    · have hbeq : (p.1 == metricKey) = false := beq_eq_false_iff_ne.mpr hm
      rw [if_neg (by simp [hbeq])]
      by_cases hpresent : (acc.lookup p.1).isSome
      · rw [if_pos hpresent, ih _ hnd.2]
        cases hacc : acc.lookup k with
        | some v => rfl
        | none =>
          by_cases hkp : k = p.1
          · rw [hkp] at hacc
            rw [hacc] at hpresent
            simp at hpresent
          · have hk : (k == p.1) = false := beq_eq_false_iff_ne.mpr hkp
            simp [List.lookup, hk]
      · rw [if_neg hpresent, ih _ hnd.2]
        by_cases hkp : k = p.1
        · subst hkp
          have hacc : acc.lookup p.1 = none := Option.not_isSome_iff_eq_none.mp hpresent
          rw [dictInsert_lookup_self, hacc]
          simp [List.lookup, hm]
        · rw [dictInsert_lookup_ne _ _ _ _ hkp]
          cases hacc : acc.lookup k with
          | some v => rfl
          | none =>
            have hk : (k == p.1) = false := beq_eq_false_iff_ne.mpr hkp
            simp [List.lookup, hk]

theorem buildAuxRegexes_lookup (metricKey : String)
    (parseSection auxSection : List (String × RegexSpec))
    (haux : (auxSection.map Prod.fst).Nodup)
    (hparse : (parseSection.map Prod.fst).Nodup) (k : String) :
    (buildAuxRegexes metricKey parseSection auxSection).lookup k =
      (match auxSection.lookup k with
       | some v => some (normalize_regexes v)
       | none =>
         if k = metricKey then none
         else (parseSection.lookup k).map normalize_regexes) := by
  rw [buildAuxRegexes]
  rw [parseFold_lookup _ _ _ hparse, auxFold_lookup _ _ haux]
  cases haux2 : auxSection.lookup k with
  | some v => rfl
  | none => simp [List.lookup]

/-- C9. When assembling the auxiliary-metric extraction rules of a backend, every
key of the explicit `aux_metrics` mapping is used; a key of the generic
`parse` mapping contributes only when it is neither the primary metric key
nor present in `aux_metrics`; for a key in both mappings the `aux_metrics`
regex list takes precedence. -/
theorem buildAuxRegexes_precedence (metricKey : String)
    (parseSection auxSection : List (String × RegexSpec))
    (haux : (auxSection.map Prod.fst).Nodup)
    (hparse : (parseSection.map Prod.fst).Nodup) :
    (∀ kv ∈ auxSection,
        (buildAuxRegexes metricKey parseSection auxSection).lookup kv.1 =
          some (normalize_regexes kv.2)) ∧
    (∀ kv ∈ parseSection, kv.1 ≠ metricKey → auxSection.lookup kv.1 = none →
        (buildAuxRegexes metricKey parseSection auxSection).lookup kv.1 =
          some (normalize_regexes kv.2)) ∧
    (∀ kv ∈ parseSection, kv.1 = metricKey → auxSection.lookup kv.1 = none →
        (buildAuxRegexes metricKey parseSection auxSection).lookup kv.1 = none) ∧
    (∀ k, ((buildAuxRegexes metricKey parseSection auxSection).lookup k).isSome →
        (auxSection.lookup k).isSome ∨
          ((parseSection.lookup k).isSome ∧ k ≠ metricKey)) := by
  refine ⟨?_, ?_, ?_, ?_⟩
  · intro kv hmem
    rw [buildAuxRegexes_lookup metricKey parseSection auxSection haux hparse kv.1]
    rw [lookup_eq_some_of_mem auxSection kv.1 kv.2 haux hmem]
  · intro kv hmem hne hnone
    rw [buildAuxRegexes_lookup metricKey parseSection auxSection haux hparse kv.1, hnone]
    simp only [if_neg hne]
    rw [lookup_eq_some_of_mem parseSection kv.1 kv.2 hparse hmem]
    rfl
  · intro kv hmem heq hnone
    rw [buildAuxRegexes_lookup metricKey parseSection auxSection haux hparse kv.1, hnone]
    simp [heq]
  · intro k hsome
    rw [buildAuxRegexes_lookup metricKey parseSection auxSection haux hparse k] at hsome
    cases haux2 : auxSection.lookup k with
    | some v => simp [haux2]
    | none =>
      rw [haux2] at hsome
      simp only at hsome
      by_cases hkm : k = metricKey
      · rw [if_pos hkm] at hsome
        simp at hsome
      · rw [if_neg hkm] at hsome
        refine Or.inr ⟨?_, hkm⟩
        cases hp : parseSection.lookup k with
        | none => rw [hp] at hsome; simp at hsome
        | some v => simp

theorem backend_is_selected_nil (name : String) : backend_is_selected name [] = true := by
  simp [backend_is_selected]

theorem buildCommands_cons_ok (vars : List (String × String)) (filters : List String)
    (b : Backend) (rest : List Backend) (acc : List (String × String)) (c : String)
    (hen : b.enabled = true) (hstrip : pyStrip b.name = b.name)
    (hne : b.name.isEmpty = false)
    (hsel : backend_is_selected b.name filters = true)
    (hcmdne : b.command.isEmpty = false)
    (hfmt : format_command b.command vars = .ok c) :
    buildCommands vars filters (b :: rest) acc =
      buildCommands vars filters rest (dictInsert acc b.name c) := by
  simp [buildCommands, hen, hstrip, hne, hsel, hcmdne, hfmt]

theorem buildCommands_cons_err (vars : List (String × String)) (filters : List String)
    (b : Backend) (rest : List Backend) (acc : List (String × String)) (e : PyError)
    (hen : b.enabled = true) (hstrip : pyStrip b.name = b.name)
    (hne : b.name.isEmpty = false)
    (hsel : backend_is_selected b.name filters = true)
    (hcmdne : b.command.isEmpty = false)
    (hfmt : format_command b.command vars = .error e) :
    buildCommands vars filters (b :: rest) acc = .error e := by
  simp [buildCommands, hen, hstrip, hne, hsel, hcmdne, hfmt]

theorem warmupLoop_zero (strict : Bool) (name command : String) (outcome : ℕ → RunOutcome)
    (i : ℕ) (trace : List SpawnEvent) :
    warmupLoop strict name command outcome 0 i trace = (trace, none) := rfl

theorem warmupLoop_no_timeout (strict : Bool) (name command : String)
    (outcome : ℕ → RunOutcome) (h : ∀ i, outcome i ≠ .timeout) :
    ∀ (n i : ℕ) (trace : List SpawnEvent),
      ∃ trace2, warmupLoop strict name command outcome n i trace = (trace2, none) := by
  intro n
  induction n with
  | zero => exact fun i trace => ⟨trace, rfl⟩
  | succ m ih =>
    intro i trace
    simp only [warmupLoop]
    cases ho : outcome i with
    | timeout => exact absurd ho (h i)
    | completed record => exact ih (i + 1) _

theorem warmupLoop_timeout_strict (name command : String) (outcome : ℕ → RunOutcome)
    (m i : ℕ) (trace : List SpawnEvent) (ho : outcome i = .timeout) :
    warmupLoop true name command outcome (m + 1) i trace =
      (trace ++ [⟨name, command, true, i⟩], some (.timeoutExpired command)) := by
  simp [warmupLoop, ho]

theorem warmupLoop_lenient (name command : String) (outcome : ℕ → RunOutcome) :
    ∀ (n i : ℕ) (trace : List SpawnEvent),
      ∃ trace2, warmupLoop false name command outcome n i trace = (trace2, none) := by
  intro n
  induction n with
  | zero => exact fun i trace => ⟨trace, rfl⟩
  | succ m ih =>
    intro i trace
    simp only [warmupLoop]
    cases ho : outcome i with
    | timeout => exact ih (i + 1) _
    | completed record => exact ih (i + 1) _

theorem measuredLoop_all_ok (strict : Bool) (name command : String)
    (outcome : ℕ → RunOutcome) (h : ∀ j, isOkOutcome (outcome j) = true) :
    ∀ (n i : ℕ) (st : MeasState) (trace : List SpawnEvent),
      ∃ st2 trace2,
        measuredLoop strict name command outcome n i st trace = (trace2, .finished st2) ∧
        st2.measured_runs.length = st.measured_runs.length + n ∧
        st2.success_metrics.length = st.success_metrics.length + n ∧
        st2.failed_runs = st.failed_runs := by
  intro n
  induction n with
  | zero => exact fun i st trace => ⟨st, trace, rfl, by simp, by simp, rfl⟩
  | succ m ih =>
    intro i st trace
    have hi := h i
    simp only [measuredLoop]
    cases ho : outcome i with
    | timeout => rw [ho] at hi; simp [isOkOutcome] at hi
    | completed r =>
      rw [ho] at hi
      have hok : (r.exit_code == 0 && r.primary_metric.isSome) = true := hi
      simp only [hok, if_true]
      obtain ⟨st2, trace2, heq, h1, h2, h3⟩ := ih (i + 1) _ _
      refine ⟨st2, trace2, heq, ?_, ?_, h3⟩
      · rw [h1]; simp only [List.length_append, List.length_cons, List.length_nil]; omega
      · rw [h2]; simp only [List.length_append, List.length_cons, List.length_nil]; omega

theorem measuredLoop_timeout_strict (name command : String) (outcome : ℕ → RunOutcome)
    (m i : ℕ) (st : MeasState) (trace : List SpawnEvent) (ho : outcome i = .timeout) :
    measuredLoop true name command outcome (m + 1) i st trace =
      (trace ++ [⟨name, command, false, i⟩],
       .halted { st with
         failed_runs := st.failed_runs + 1
         measured_runs := st.measured_runs ++ [.timeoutEntry i] }) := by
  simp [measuredLoop, ho]

theorem measuredLoop_failrec_strict (name command : String) (outcome : ℕ → RunOutcome)
    (m i : ℕ) (st : MeasState) (trace : List SpawnEvent) (r : RunRecord)
    (ho : outcome i = .completed r)
    (hfail : (r.exit_code == 0 && r.primary_metric.isSome) = false) :
    measuredLoop true name command outcome (m + 1) i st trace =
      (trace ++ [⟨name, command, false, i⟩],
       .halted { st with
         measured_runs := st.measured_runs ++ [.recordEntry i false r]
         failed_runs := st.failed_runs + 1 }) := by
  simp [measuredLoop, ho, hfail]

theorem measuredLoop_lenient (name command : String) (outcome : ℕ → RunOutcome) :
    ∀ (n i : ℕ) (st : MeasState) (trace : List SpawnEvent),
      ∃ st2 trace2,
        measuredLoop false name command outcome n i st trace = (trace2, .finished st2) ∧
        st2.measured_runs.length = st.measured_runs.length + n := by
  intro n
  induction n with
  | zero => exact fun i st trace => ⟨st, trace, rfl, by simp⟩
  | succ m ih =>
    intro i st trace
    simp only [measuredLoop, Bool.false_eq_true, if_false]
    cases ho : outcome i with
    | timeout =>
      obtain ⟨st2, trace2, heq, h1⟩ := ih (i + 1) _ _
      refine ⟨st2, trace2, heq, ?_⟩
      rw [h1]
      simp only [List.length_append, List.length_cons, List.length_nil]
      omega
    | completed r =>
      by_cases hok : (r.exit_code == 0 && r.primary_metric.isSome) = true
      · simp only [hok, if_true]
        obtain ⟨st2, trace2, heq, h1⟩ := ih (i + 1) _ _
        refine ⟨st2, trace2, heq, ?_⟩
        rw [h1]
        simp only [List.length_append, List.length_cons, List.length_nil]
        omega
      · simp only [Bool.not_eq_true] at hok
        simp only [hok, Bool.false_eq_true, if_false]
        obtain ⟨st2, trace2, heq, h1⟩ := ih (i + 1) _ _
        refine ⟨st2, trace2, heq, ?_⟩
        rw [h1]
        simp only [List.length_append, List.length_cons, List.length_nil]
        omega

theorem mainLoop_cons_disabled (cfg : Config) (commands : List (String × String))
    (sqrtQ : ℚ → ℚ) (b : Backend) (rest : List Backend) (rows : List ResultRow)
    (trace : List SpawnEvent) (hen : b.enabled = false) :
    mainLoop cfg commands sqrtQ (b :: rest) rows trace =
      mainLoop cfg commands sqrtQ rest rows trace := by
  simp [mainLoop, hen]

theorem mainLoop_cons_nocmd (cfg : Config) (commands : List (String × String))
    (sqrtQ : ℚ → ℚ) (b : Backend) (rest : List Backend) (rows : List ResultRow)
    (trace : List SpawnEvent) (hen : b.enabled = true)
    (hcmd : commands.lookup b.name = none) :
    mainLoop cfg commands sqrtQ (b :: rest) rows trace =
      mainLoop cfg commands sqrtQ rest rows trace := by
  simp [mainLoop, hen, hcmd]

theorem mainLoop_cons_envfail (cfg : Config) (commands : List (String × String))
    (sqrtQ : ℚ → ℚ) (b : Backend) (rest : List Backend) (rows : List ResultRow)
    (trace : List SpawnEvent) (command : String) (e : PyError)
    (hen : b.enabled = true) (hcmd : commands.lookup b.name = some command)
    (henv : buildEnv cfg.vars b.env = .error e) :
    mainLoop cfg commands sqrtQ (b :: rest) rows trace = ⟨trace, .raised e⟩ := by
  simp [mainLoop, hen, hcmd, henv]

theorem mainLoop_cons_warmup_raised (cfg : Config) (commands : List (String × String))
    (sqrtQ : ℚ → ℚ) (b : Backend) (rest : List Backend) (rows : List ResultRow)
    (trace trace2 : List SpawnEvent) (command : String) (env : List (String × String))
    (e : PyError)
    (hen : b.enabled = true) (hcmd : commands.lookup b.name = some command)
    (henv : buildEnv cfg.vars b.env = .ok env)
    (hreg : ((resolvedMetricRegexes cfg b).isEmpty && !cfg.metric_fallback_to_wall_time) = false)
    (hw : warmupLoop cfg.strict b.name command b.warmupOutcome cfg.warmup_runs 1 trace
      = (trace2, some e)) :
    mainLoop cfg commands sqrtQ (b :: rest) rows trace = ⟨trace2, .raised e⟩ := by
  simp [mainLoop, hen, hcmd, henv, hreg, hw]

theorem mainLoop_cons_halted (cfg : Config) (commands : List (String × String))
    (sqrtQ : ℚ → ℚ) (b : Backend) (rest : List Backend) (rows : List ResultRow)
    (trace trace2 trace3 : List SpawnEvent) (command : String)
    (env : List (String × String)) (st : MeasState)
    (hen : b.enabled = true) (hcmd : commands.lookup b.name = some command)
    (henv : buildEnv cfg.vars b.env = .ok env)
    (hreg : ((resolvedMetricRegexes cfg b).isEmpty && !cfg.metric_fallback_to_wall_time) = false)
    (hw : warmupLoop cfg.strict b.name command b.warmupOutcome cfg.warmup_runs 1 trace
      = (trace2, none))
    (hm : measuredLoop cfg.strict b.name command b.measuredOutcome cfg.runs 1 initMeasState trace2
      = (trace3, .halted st)) :
    mainLoop cfg commands sqrtQ (b :: rest) rows trace = ⟨trace3, .exited 2 rows⟩ := by
  simp [mainLoop, hen, hcmd, henv, hreg, hw, hm]

theorem mainLoop_cons_finished (cfg : Config) (commands : List (String × String))
    (sqrtQ : ℚ → ℚ) (b : Backend) (rest : List Backend) (rows : List ResultRow)
    (trace trace2 trace3 : List SpawnEvent) (command : String)
    (env : List (String × String)) (st : MeasState)
    (hen : b.enabled = true) (hcmd : commands.lookup b.name = some command)
    (henv : buildEnv cfg.vars b.env = .ok env)
    (hreg : ((resolvedMetricRegexes cfg b).isEmpty && !cfg.metric_fallback_to_wall_time) = false)
    (hw : warmupLoop cfg.strict b.name command b.warmupOutcome cfg.warmup_runs 1 trace
      = (trace2, none))
    (hm : measuredLoop cfg.strict b.name command b.measuredOutcome cfg.runs 1 initMeasState trace2
      = (trace3, .finished st)) :
    mainLoop cfg commands sqrtQ (b :: rest) rows trace =
      mainLoop cfg commands sqrtQ rest (rows ++ [mkRow sqrtQ b.name command st]) trace3 := by
  simp [mainLoop, hen, hcmd, henv, hreg, hw, hm]

/-- C7. Under strict mode a warmup timeout re-raises immediately — the loop
returns the escalated `TimeoutExpired` without any run record (the raising
backend contributes neither a measured entry nor a result row, as `main` ends
`.raised` with the warmup spawn as the last trace event) — whereas a measured
timeout first appends its failed run record to `measured_runs` and then
halts, `main` returning exit code 2; under lenient mode both are tolerated
and iteration continues through all remaining runs. -/
theorem warmup_vs_measured_timeout
    (name command : String) (outcome : ℕ → RunOutcome)
    (m i n : ℕ) (st : MeasState) (trace : List SpawnEvent)
    (cfg : Config) (commands : List (String × String)) (sqrtQ : ℚ → ℚ)
    (b : Backend) (rest : List Backend) (rows : List ResultRow) (command2 : String)
    (env : List (String × String)) :
    (outcome i = .timeout →
      warmupLoop true name command outcome (m + 1) i trace
        = (trace ++ [⟨name, command, true, i⟩], some (.timeoutExpired command)) ∧
      measuredLoop true name command outcome (m + 1) i st trace
        = (trace ++ [⟨name, command, false, i⟩],
           .halted { st with
             failed_runs := st.failed_runs + 1
             measured_runs := st.measured_runs ++ [.timeoutEntry i] })) ∧
    (∃ trace2, warmupLoop false name command outcome n i trace = (trace2, none)) ∧
    (∃ st2 trace2,
      measuredLoop false name command outcome n i st trace = (trace2, .finished st2) ∧
      st2.measured_runs.length = st.measured_runs.length + n) ∧
    (cfg.strict = true → b.enabled = true → commands.lookup b.name = some command2 →
      buildEnv cfg.vars b.env = .ok env →
      ((resolvedMetricRegexes cfg b).isEmpty && !cfg.metric_fallback_to_wall_time) = false →
      b.warmupOutcome 1 = .timeout → 1 ≤ cfg.warmup_runs →
      mainLoop cfg commands sqrtQ (b :: rest) rows trace
        = ⟨trace ++ [⟨b.name, command2, true, 1⟩], .raised (.timeoutExpired command2)⟩) ∧
    (cfg.strict = true → b.enabled = true → commands.lookup b.name = some command2 →
      buildEnv cfg.vars b.env = .ok env →
      ((resolvedMetricRegexes cfg b).isEmpty && !cfg.metric_fallback_to_wall_time) = false →
      (∀ j, b.warmupOutcome j ≠ .timeout) →
      b.measuredOutcome 1 = .timeout → 1 ≤ cfg.runs →
      ∃ trace3, mainLoop cfg commands sqrtQ (b :: rest) rows trace
        = ⟨trace3, .exited 2 rows⟩) := by
  refine ⟨?_, warmupLoop_lenient name command outcome n i trace,
    measuredLoop_lenient name command outcome n i st trace, ?_, ?_⟩
  · intro ho
    exact ⟨warmupLoop_timeout_strict name command outcome m i trace ho,
      measuredLoop_timeout_strict name command outcome m i st trace ho⟩
  · intro hstrict hen hcmd henv hreg hto hwu
    obtain ⟨w, hw⟩ : ∃ w, cfg.warmup_runs = w + 1 := by
      cases hwr : cfg.warmup_runs with
      | zero => omega
      | succ w => exact ⟨w, rfl⟩
    refine mainLoop_cons_warmup_raised cfg commands sqrtQ b rest rows trace _ command2 env
      (.timeoutExpired command2) hen hcmd henv hreg ?_
    rw [hstrict, hw]
    exact warmupLoop_timeout_strict b.name command2 b.warmupOutcome w 1 trace hto
  · intro hstrict hen hcmd henv hreg hwarm hto hrun
    obtain ⟨k, hk⟩ : ∃ k, cfg.runs = k + 1 := by
      cases hr : cfg.runs with
      | zero => omega
      | succ k => exact ⟨k, rfl⟩
    obtain ⟨trace2, hwl⟩ :=
      warmupLoop_no_timeout cfg.strict b.name command2 b.warmupOutcome hwarm
        cfg.warmup_runs 1 trace
    refine ⟨trace2 ++ [⟨b.name, command2, false, 1⟩], ?_⟩
    exact mainLoop_cons_halted cfg commands sqrtQ b rest rows trace trace2
      (trace2 ++ [⟨b.name, command2, false, 1⟩]) command2 env
      { initMeasState with
        failed_runs := initMeasState.failed_runs + 1
        measured_runs := initMeasState.measured_runs ++ [.timeoutEntry 1] }
      hen hcmd henv hreg hwl
      (by
        rw [hstrict, hk]
        exact measuredLoop_timeout_strict b.name command2 b.measuredOutcome k 1
          initMeasState trace2 hto)

theorem dictInsert_of_not_found {α : Type} (d : List (String × α)) (k : String) (v : α)
    (h : d.lookup k = none) : dictInsert d k v = d ++ [(k, v)] := by
  simp [dictInsert, h]

theorem measuredLoop_first_fail_strict (name command : String) (outcome : ℕ → RunOutcome)
    (k i : ℕ) (st : MeasState) (trace : List SpawnEvent)
    (hfail : isOkOutcome (outcome i) = false) :
    ∃ st2, measuredLoop true name command outcome (k + 1) i st trace
      = (trace ++ [⟨name, command, false, i⟩], .halted st2) := by
  cases ho : outcome i with
  | timeout =>
    exact ⟨_, measuredLoop_timeout_strict name command outcome k i st trace ho⟩
  | completed r =>
    rw [ho] at hfail
    exact ⟨_, measuredLoop_failrec_strict name command outcome k i st trace r ho hfail⟩

/-- C1 (amended). Three backends under strict mode, the second failing on its
first measured run (ordinary failure or timeout): the orchestrator exits with
code 2, and its result contains exactly the full row of backend-1 (status
`ok`, one measured entry per configured run, the resolved command) — the
partial run records of backend-2, including the failing one, are accumulated
only in the loop-local measured-runs list, its row is never appended, and the
result has no entry for backend-2 or backend-3. -/
theorem strict_halt_three_backends
    (cfg : Config) (sqrtQ : ℚ → ℚ) (b1 b2 b3 : Backend) (c1 c2 c3 : String)
    (hbs : cfg.backends = [b1, b2, b3])
    (hstrict : cfg.strict = true)
    (hfil : cfg.backendFilters = [])
    (hrun : 1 ≤ cfg.runs)
    (hen1 : b1.enabled = true) (hen2 : b2.enabled = true)
    (hstrip1 : pyStrip b1.name = b1.name) (hstrip2 : pyStrip b2.name = b2.name)
    (hstrip3 : pyStrip b3.name = b3.name)
    (hen3 : b3.enabled = true)
    (hne1 : b1.name.isEmpty = false) (hne2 : b2.name.isEmpty = false)
    (hne3 : b3.name.isEmpty = false)
    (hd12 : b1.name ≠ b2.name) (hd13 : b1.name ≠ b3.name) (hd23 : b2.name ≠ b3.name)
    (hcne1 : b1.command.isEmpty = false) (hcne2 : b2.command.isEmpty = false)
    (hcne3 : b3.command.isEmpty = false)
    (hf1 : format_command b1.command cfg.vars = .ok c1)
    (hf2 : format_command b2.command cfg.vars = .ok c2)
    (hf3 : format_command b3.command cfg.vars = .ok c3)
    (henv1 : b1.env = []) (henv2 : b2.env = [])
    (hreg1 : ((resolvedMetricRegexes cfg b1).isEmpty && !cfg.metric_fallback_to_wall_time) = false)
    (hreg2 : ((resolvedMetricRegexes cfg b2).isEmpty && !cfg.metric_fallback_to_wall_time) = false)
    (hw1 : ∀ j, b1.warmupOutcome j ≠ .timeout)
    (hw2 : ∀ j, b2.warmupOutcome j ≠ .timeout)
    (hok1 : ∀ j, isOkOutcome (b1.measuredOutcome j) = true)
    (hfail2 : isOkOutcome (b2.measuredOutcome 1) = false) :
    ∃ trace row1,
      mainModel cfg sqrtQ = ⟨trace, .exited 2 [row1]⟩ ∧
      row1.name = b1.name ∧ row1.command = c1 ∧ row1.status = "ok" ∧
      row1.runs.length = cfg.runs := by
  have hsel : ∀ name : String, backend_is_selected name cfg.backendFilters = true := by
    intro name
    rw [hfil]
    exact backend_is_selected_nil name
  -- phase 1: the resolved command dictionary
  have hb21 : (b2.name == b1.name) = false := beq_eq_false_iff_ne.mpr (Ne.symm hd12)
  have hb31 : (b3.name == b1.name) = false := beq_eq_false_iff_ne.mpr (Ne.symm hd13)
  have hb32 : (b3.name == b2.name) = false := beq_eq_false_iff_ne.mpr (Ne.symm hd23)
  have hacc1 : dictInsert ([] : List (String × String)) b1.name c1 = [(b1.name, c1)] :=
    dictInsert_of_not_found _ _ _ rfl
  have hacc2 : dictInsert [(b1.name, c1)] b2.name c2 = [(b1.name, c1), (b2.name, c2)] := by
    rw [dictInsert_of_not_found]
    · rfl
    · simp [List.lookup, hb21]
  have hacc3 : dictInsert [(b1.name, c1), (b2.name, c2)] b3.name c3 =
      [(b1.name, c1), (b2.name, c2), (b3.name, c3)] := by
    rw [dictInsert_of_not_found]
    · rfl
    · simp [List.lookup, hb31, hb32]
  have hcmds : buildCommands cfg.vars cfg.backendFilters [b1, b2, b3] [] =
      .ok [(b1.name, c1), (b2.name, c2), (b3.name, c3)] := by
    rw [buildCommands_cons_ok cfg.vars cfg.backendFilters b1 _ _ c1
        hen1 hstrip1 hne1 (hsel b1.name) hcne1 hf1, hacc1]
    rw [buildCommands_cons_ok cfg.vars cfg.backendFilters b2 _ _ c2
        hen2 hstrip2 hne2 (hsel b2.name) hcne2 hf2, hacc2]
    rw [buildCommands_cons_ok cfg.vars cfg.backendFilters b3 _ _ c3
        hen3 hstrip3 hne3 (hsel b3.name) hcne3 hf3, hacc3]
    rfl
  -- phase 2 lookups
  have hlk1 : List.lookup b1.name [(b1.name, c1), (b2.name, c2), (b3.name, c3)] = some c1 := by
    simp [List.lookup]
  have hlk2 : List.lookup b2.name [(b1.name, c1), (b2.name, c2), (b3.name, c3)] = some c2 := by
    simp [List.lookup, hb21]
  -- backend 1 completes all runs successfully
  obtain ⟨w2, hwl1⟩ :=
    warmupLoop_no_timeout cfg.strict b1.name c1 b1.warmupOutcome hw1 cfg.warmup_runs 1 []
  obtain ⟨st1, w3, hml1, hlen1, hsucc1, hfailed1⟩ :=
    measuredLoop_all_ok cfg.strict b1.name c1 b1.measuredOutcome hok1 cfg.runs 1
      initMeasState w2
  -- backend 2 halts on its first measured run
  obtain ⟨w4, hwl2⟩ :=
    warmupLoop_no_timeout cfg.strict b2.name c2 b2.warmupOutcome hw2 cfg.warmup_runs 1 w3
  obtain ⟨k, hk⟩ : ∃ k, cfg.runs = k + 1 := by
    cases hr : cfg.runs with
    | zero => omega
    | succ k => exact ⟨k, rfl⟩
  obtain ⟨st2f, hml2⟩ :=
    measuredLoop_first_fail_strict b2.name c2 b2.measuredOutcome k 1 initMeasState w4 hfail2
  -- the row of backend 1
  have hnel : st1.success_metrics.isEmpty = false := by
    cases hemp : st1.success_metrics.isEmpty with
    | false => rfl
    | true =>
      rw [List.isEmpty_iff.mp hemp] at hsucc1
      simp [initMeasState] at hsucc1
      omega
  refine ⟨w4 ++ [⟨b2.name, c2, false, 1⟩], mkRow sqrtQ b1.name c1 st1, ?_, rfl, rfl, ?_, ?_⟩
  · -- the full evaluation of the orchestrator
    rw [mainModel]
    rw [hbs]
    rw [if_neg (by simp)]
    rw [hcmds]
    simp only
    rw [if_neg (by simp)]
    rw [mainLoop_cons_finished cfg _ sqrtQ b1 _ [] [] w2 w3 c1 [] st1
      hen1 hlk1 (by rw [henv1]; rfl) hreg1 hwl1 hml1]
    rw [mainLoop_cons_halted cfg _ sqrtQ b2 _ _ w3 w4
      (w4 ++ [⟨b2.name, c2, false, 1⟩]) c2 [] st2f
      hen2 hlk2 (by rw [henv2]; rfl) hreg2 hwl2 (by rw [hstrict, hk]; exact hml2)]
    simp
  · simp [mkRow, hnel]
  · show st1.measured_runs.length = cfg.runs
    rw [hlen1]
    simp [initMeasState]

/-- C1, counterexample to the claim as stated: in the three-backend strict
scenario the process does exit 2, but the result contains only the row of
backend-1 — the partial result of backend-2 (its failing first run) is not
part of the result, contradicting the claimed property that the result
contains the partial result of backend-2 up to and including the failing
run. -/
theorem strict_halt_counterexample :
    (mainModel cexCfgC1 (fun _ => 0)).exitCode = some 2 ∧
    (mainModel cexCfgC1 (fun _ => 0)).rowNames = ["b1"] := by
  constructor
  · decide
  · decide

/-- Closed instance of the amended strict-halt theorem. -/
theorem strict_halt_three_backends_witness :
    1 ≤ cexCfgC1.runs ∧
    (∃ trace row1,
      mainModel cexCfgC1 (fun _ => 0) = ⟨trace, .exited 2 [row1]⟩ ∧
      row1.name = cexB1.name ∧ row1.command = "run1" ∧ row1.status = "ok" ∧
      row1.runs.length = cexCfgC1.runs) :=
  ⟨by decide,
   strict_halt_three_backends cexCfgC1 (fun _ => 0) cexB1 cexB2 cexB3 "run1" "run2" "run3"
    rfl rfl rfl (by decide) rfl rfl (by decide) (by decide) (by decide) rfl
    (by decide) (by decide) (by decide) (by decide) (by decide) (by decide)
    rfl rfl rfl rfl rfl rfl rfl rfl (by decide) (by decide)
    (fun j => by simp [cexB1]) (fun j => by simp [cexB2])
    (fun j => rfl) (by decide)⟩

theorem warmupLoop_trace (strict : Bool) (name command : String) (outcome : ℕ → RunOutcome) :
    ∀ (n i : ℕ) (trace : List SpawnEvent),
      ∃ tail, (warmupLoop strict name command outcome n i trace).1 = trace ++ tail ∧
        ∀ ev ∈ tail, ev.backend = name ∧ ev.command = command := by
  intro n
  induction n with
  | zero => exact fun i trace => ⟨[], by simp [warmupLoop], by simp⟩
  | succ m ih =>
    intro i trace
    simp only [warmupLoop]
    cases ho : outcome i with
    | timeout =>
      by_cases hs : strict = true
      · rw [if_pos hs]
        exact ⟨[⟨name, command, true, i⟩], by simp, by simp⟩
      · rw [if_neg hs]
        obtain ⟨tail, h1, h2⟩ := ih (i + 1) (trace ++ [⟨name, command, true, i⟩])
        refine ⟨⟨name, command, true, i⟩ :: tail, by simpa using h1, ?_⟩
        intro ev hev
        rcases List.mem_cons.mp hev with rfl | hev2
        · exact ⟨rfl, rfl⟩
        · exact h2 ev hev2
    | completed r =>
      obtain ⟨tail, h1, h2⟩ := ih (i + 1) (trace ++ [⟨name, command, true, i⟩])
      refine ⟨⟨name, command, true, i⟩ :: tail, by simpa using h1, ?_⟩
      intro ev hev
      rcases List.mem_cons.mp hev with rfl | hev2
      · exact ⟨rfl, rfl⟩
      · exact h2 ev hev2

theorem measuredLoop_trace (strict : Bool) (name command : String) (outcome : ℕ → RunOutcome) :
    ∀ (n i : ℕ) (st : MeasState) (trace : List SpawnEvent),
      ∃ tail, (measuredLoop strict name command outcome n i st trace).1 = trace ++ tail ∧
        (∀ ev ∈ tail, ev.backend = name ∧ ev.command = command) ∧
        (n ≠ 0 → tail ≠ []) := by
  intro n
  induction n with
  | zero => exact fun i st trace => ⟨[], by simp [measuredLoop], by simp, by simp⟩
  | succ m ih =>
    intro i st trace
    simp only [measuredLoop]
    have hcons : ∀ (st2 : MeasState),
        ∃ tail,
          (measuredLoop strict name command outcome m (i + 1) st2
            (trace ++ [⟨name, command, false, i⟩])).1 =
            trace ++ (⟨name, command, false, i⟩ :: tail) ∧
          ∀ ev ∈ tail, ev.backend = name ∧ ev.command = command := by
      intro st2
      obtain ⟨tail, h1, h2, _⟩ := ih (i + 1) st2 (trace ++ [⟨name, command, false, i⟩])
      exact ⟨tail, by simpa using h1, h2⟩
    have hsingle : ∀ ev ∈ [(⟨name, command, false, i⟩ : SpawnEvent)],
        ev.backend = name ∧ ev.command = command := by simp
    have hconsAll : ∀ (tail : List SpawnEvent),
        (∀ ev ∈ tail, ev.backend = name ∧ ev.command = command) →
        ∀ ev ∈ (⟨name, command, false, i⟩ : SpawnEvent) :: tail,
          ev.backend = name ∧ ev.command = command := by
      intro tail h2 ev hev
      rcases List.mem_cons.mp hev with rfl | hev2
      · exact ⟨rfl, rfl⟩
      · exact h2 ev hev2
    cases ho : outcome i with
    | timeout =>
      by_cases hs : strict = true
      · rw [if_pos hs]
        exact ⟨[⟨name, command, false, i⟩], by simp, hsingle, by simp⟩
      · rw [if_neg hs]
        obtain ⟨tail, h1, h2⟩ := hcons _
        exact ⟨⟨name, command, false, i⟩ :: tail, h1, hconsAll tail h2, by simp⟩
    | completed r =>
      by_cases hok : (r.exit_code == 0 && r.primary_metric.isSome) = true
      · simp only [hok, if_true]
        obtain ⟨tail, h1, h2⟩ := hcons _
        exact ⟨⟨name, command, false, i⟩ :: tail, h1, hconsAll tail h2, by simp⟩
      · simp only [Bool.not_eq_true] at hok
        simp only [hok, Bool.false_eq_true, if_false]
        by_cases hs : strict = true
        · rw [if_pos hs]
          exact ⟨[⟨name, command, false, i⟩], by simp, hsingle, by simp⟩
        · rw [if_neg hs]
          obtain ⟨tail, h1, h2⟩ := hcons _
          exact ⟨⟨name, command, false, i⟩ :: tail, h1, hconsAll tail h2, by simp⟩

theorem applyRatios_name (direction : String) (rows : List ResultRow) :
    (applyRatios direction rows).map ResultRow.name = rows.map ResultRow.name := by
  rw [applyRatios]
  split
  · rfl
  · split
    · rw [List.map_map]
      apply List.map_congr_left
      intro r _
      by_cases hg : isGood r = true <;> simp [hg]
    · rfl

theorem applyRatios_command (direction : String) (rows : List ResultRow) :
    (applyRatios direction rows).map ResultRow.command = rows.map ResultRow.command := by
  rw [applyRatios]
  split
  · rfl
  · split
    · rw [List.map_map]
      apply List.map_congr_left
      intro r _
      by_cases hg : isGood r = true <;> simp [hg]
    · rfl

/-- C10. Two enabled, filter-selected backends with the same name: the later
backend template overwrites the earlier entry in the resolved command map,
both backend entries execute the command derived from the last template
(every spawned process runs it, and the earlier resolved command is never
executed when the two differ), and the result contains two rows with the same
name. -/
theorem duplicate_name_overwrites
    (cfg : Config) (sqrtQ : ℚ → ℚ) (bA bB : Backend) (cA cB : String)
    (hbs : cfg.backends = [bA, bB])
    (hstrict : cfg.strict = false)
    (hfil : cfg.backendFilters = [])
    (hname : bB.name = bA.name)
    (henA : bA.enabled = true) (henB : bB.enabled = true)
    (hstripA : pyStrip bA.name = bA.name)
    (hneA : bA.name.isEmpty = false)
    (hcneA : bA.command.isEmpty = false) (hcneB : bB.command.isEmpty = false)
    (hfA : format_command bA.command cfg.vars = .ok cA)
    (hfB : format_command bB.command cfg.vars = .ok cB)
    (henvA : bA.env = []) (henvB : bB.env = [])
    (hregA : ((resolvedMetricRegexes cfg bA).isEmpty && !cfg.metric_fallback_to_wall_time) = false)
    (hregB : ((resolvedMetricRegexes cfg bB).isEmpty && !cfg.metric_fallback_to_wall_time) = false) :
    buildCommands cfg.vars cfg.backendFilters [bA, bB] [] = .ok [(bA.name, cB)] ∧
    ∃ trace rows2,
      mainModel cfg sqrtQ = ⟨trace, .exited 0 rows2⟩ ∧
      rows2.map ResultRow.name = [bA.name, bA.name] ∧
      rows2.map ResultRow.command = [cB, cB] ∧
      (∀ ev ∈ trace, ev.command = cB) ∧
      (cA ≠ cB → ∀ ev ∈ trace, ev.command ≠ cA) := by
  have hsel : ∀ name : String, backend_is_selected name cfg.backendFilters = true := by
    intro name
    rw [hfil]
    exact backend_is_selected_nil name
  have hover : dictInsert [(bA.name, cA)] bA.name cB = [(bA.name, cB)] := by
    simp [dictInsert, List.lookup]
  have hcmds : buildCommands cfg.vars cfg.backendFilters [bA, bB] [] = .ok [(bA.name, cB)] := by
    rw [buildCommands_cons_ok cfg.vars cfg.backendFilters bA _ _ cA
        henA hstripA hneA (hsel bA.name) hcneA hfA,
      dictInsert_of_not_found ([] : List (String × String)) bA.name cA rfl]
    rw [buildCommands_cons_ok cfg.vars cfg.backendFilters bB _ _ cB
        henB (by rw [hname]; exact hstripA) (by rw [hname]; exact hneA)
        (by rw [hname]; exact hsel bA.name) hcneB hfB]
    rw [hname]
    simp only [List.nil_append]
    rw [hover]
    rfl
  have hlkA : List.lookup bA.name [(bA.name, cB)] = some cB := by simp [List.lookup]
  have hlkB : List.lookup bB.name [(bA.name, cB)] = some cB := by rw [hname]; exact hlkA
  -- backend A runs to completion (lenient mode never halts)
  obtain ⟨wA, hwlA⟩ := by
    have := warmupLoop_lenient bA.name cB bA.warmupOutcome cfg.warmup_runs 1 []
    rw [← hstrict] at this
    exact this
  obtain ⟨stA, mA, hmlA, _⟩ := by
    have := measuredLoop_lenient bA.name cB bA.measuredOutcome cfg.runs 1 initMeasState wA
    rw [← hstrict] at this
    exact this
  obtain ⟨wB, hwlB⟩ := by
    have := warmupLoop_lenient bB.name cB bB.warmupOutcome cfg.warmup_runs 1 mA
    rw [← hstrict] at this
    exact this
  obtain ⟨stB, mB, hmlB, _⟩ := by
    have := measuredLoop_lenient bB.name cB bB.measuredOutcome cfg.runs 1 initMeasState wB
    rw [← hstrict] at this
    exact this
  -- trace bookkeeping: every event carries the overwritten command cB
  have htrace : ∀ ev ∈ mB, ev.command = cB := by
    obtain ⟨t1, he1, hv1⟩ := warmupLoop_trace cfg.strict bA.name cB bA.warmupOutcome
      cfg.warmup_runs 1 []
    rw [hwlA] at he1
    have he1a : wA = [] ++ t1 := he1
    obtain ⟨t2, he2, hv2, _⟩ := measuredLoop_trace cfg.strict bA.name cB bA.measuredOutcome
      cfg.runs 1 initMeasState wA
    rw [hmlA] at he2
    have he2a : mA = wA ++ t2 := he2
    obtain ⟨t3, he3, hv3⟩ := warmupLoop_trace cfg.strict bB.name cB bB.warmupOutcome
      cfg.warmup_runs 1 mA
    rw [hwlB] at he3
    have he3a : wB = mA ++ t3 := he3
    obtain ⟨t4, he4, hv4, _⟩ := measuredLoop_trace cfg.strict bB.name cB bB.measuredOutcome
      cfg.runs 1 initMeasState wB
    rw [hmlB] at he4
    have he4a : mB = wB ++ t4 := he4
    intro ev hev
    rw [he4a, he3a, he2a, he1a] at hev
    simp only [List.nil_append, List.mem_append] at hev
    rcases hev with ((h | h) | h) | h
    · exact (hv1 ev h).2
    · exact (hv2 ev h).2
    · exact (hv3 ev h).2
    · exact (hv4 ev h).2
  refine ⟨hcmds, mB, applyRatios cfg.direction
    [mkRow sqrtQ bA.name cB stA, mkRow sqrtQ bB.name cB stB], ?_, ?_, ?_, htrace, ?_⟩
  · rw [mainModel, hbs]
    rw [if_neg (by simp)]
    rw [hcmds]
    simp only
    rw [if_neg (by simp)]
    rw [mainLoop_cons_finished cfg _ sqrtQ bA _ [] [] wA mA cB []
      stA henA hlkA (by rw [henvA]; rfl) hregA hwlA hmlA]
    rw [mainLoop_cons_finished cfg _ sqrtQ bB _ _ mA wB mB cB []
      stB henB hlkB (by rw [henvB]; rfl) hregB hwlB hmlB]
    rw [mainLoop]
    simp
  · rw [applyRatios_name]
    simp [mkRow, hname]
  · rw [applyRatios_command]
    simp [mkRow]
  · intro hne ev hev heq
    exact hne (by rw [← heq, htrace ev hev])

/-- Closed instance of the duplicate-name theorem. -/
theorem duplicate_name_overwrites_witness :
    buildCommands c10Cfg.vars c10Cfg.backendFilters [c10BA, c10BB] []
      = .ok [(c10BA.name, "cmdB")] ∧
    ∃ trace rows2,
      mainModel c10Cfg (fun _ => 0) = ⟨trace, .exited 0 rows2⟩ ∧
      rows2.map ResultRow.name = [c10BA.name, c10BA.name] ∧
      rows2.map ResultRow.command = ["cmdB", "cmdB"] ∧
      (∀ ev ∈ trace, ev.command = "cmdB") ∧
      ("cmdA" ≠ "cmdB" → ∀ ev ∈ trace, ev.command ≠ "cmdA") :=
  duplicate_name_overwrites c10Cfg (fun _ => 0) c10BA c10BB "cmdA" "cmdB"
    rfl rfl rfl rfl rfl rfl (by decide) (by decide) rfl rfl rfl rfl rfl rfl
    (by decide) (by decide)

theorem formatParts_missing (t : Template) (tvars : List (String × String)) (v : String)
    (hmem : TemplatePart.var v ∈ t) (hnone : tvars.lookup v = none) :
    ∃ v2, formatParts t tvars = .error v2 ∧ tvars.lookup v2 = none ∧
      TemplatePart.var v2 ∈ t := by
  induction t with
  | nil => cases hmem
  | cons p rest ih =>
    cases p with
    | lit s =>
      have hmem2 : TemplatePart.var v ∈ rest := by
        rcases List.mem_cons.mp hmem with h | h
        · cases h
        · exact h
      obtain ⟨v2, he, hn, hm⟩ := ih hmem2
      exact ⟨v2, by simp [formatParts, he, Except.map], hn, List.mem_cons_of_mem _ hm⟩
    | var n =>
      cases hl : tvars.lookup n with
      | none => exact ⟨n, by simp [formatParts, hl], hl, List.mem_cons_self _ _⟩
      | some w =>
        have hvn : v ≠ n := by
          intro h
          rw [h, hl] at hnone
          cases hnone
        have hmem2 : TemplatePart.var v ∈ rest := by
          rcases List.mem_cons.mp hmem with h | h
          · cases h
            exact absurd rfl hvn
          · exact h
        obtain ⟨v2, he, hn2, hm⟩ := ih hmem2
        exact ⟨v2, by simp [formatParts, hl, he, Except.map], hn2, List.mem_cons_of_mem _ hm⟩

/-- C2 (amended). Template-expansion failures abort the run, but at two
different points: a backend command template referencing an undefined
variable makes command resolution fail before any process is spawned (the
trace is empty); the error names the missing variable and the offending
template. A per-backend environment value referencing an undefined variable,
however, raises only when that backend is reached in the run loop: backends
earlier in the list have already executed (the trace is non-empty yet
contains only their spawns, and the offending backend never spawns). -/
theorem expansion_failure_abort_points
    (cfg cfg2 : Config) (sqrtQ : ℚ → ℚ) (e e2 : PyError)
    (t : Template) (tvars : List (String × String)) (v : String)
    (b1 b2 : Backend) (c1 c2 : String) :
    (cfg.backends ≠ [] →
      buildCommands cfg.vars cfg.backendFilters cfg.backends [] = .error e →
      mainModel cfg sqrtQ = ⟨[], .raised e⟩) ∧
    (TemplatePart.var v ∈ t → tvars.lookup v = none →
      ∃ v2, format_command t tvars = .error (.valueError
          ("missing template variable " ++ v2 ++ " in command: " ++ templateRaw t)) ∧
        tvars.lookup v2 = none ∧ TemplatePart.var v2 ∈ t) ∧
    (cfg2.backends = [b1, b2] → cfg2.backendFilters = [] → 1 ≤ cfg2.runs →
      b1.enabled = true → b2.enabled = true →
      pyStrip b1.name = b1.name → pyStrip b2.name = b2.name →
      b1.name.isEmpty = false → b2.name.isEmpty = false →
      b1.name ≠ b2.name →
      b1.command.isEmpty = false → b2.command.isEmpty = false →
      format_command b1.command cfg2.vars = .ok c1 →
      format_command b2.command cfg2.vars = .ok c2 →
      b1.env = [] →
      ((resolvedMetricRegexes cfg2 b1).isEmpty && !cfg2.metric_fallback_to_wall_time) = false →
      (∀ j, b1.warmupOutcome j ≠ .timeout) →
      (∀ j, isOkOutcome (b1.measuredOutcome j) = true) →
      buildEnv cfg2.vars b2.env = .error e2 →
      ∃ trace, mainModel cfg2 sqrtQ = ⟨trace, .raised e2⟩ ∧ trace ≠ [] ∧
        ∀ ev ∈ trace, ev.backend = b1.name) := by
  refine ⟨?_, ?_, ?_⟩
  · intro hnz h
    rw [mainModel, if_neg (by simp [hnz]), h]
  · intro hmem hnone
    obtain ⟨v2, he, hn, hm⟩ := formatParts_missing t tvars v hmem hnone
    exact ⟨v2, by simp [format_command, he], hn, hm⟩
  · intro hbs hfil hrun hen1 hen2 hstrip1 hstrip2 hne1 hne2 hd12 hcne1 hcne2
      hf1 hf2 henv1 hreg1 hw1 hok1 henv2
    have hsel : ∀ name : String, backend_is_selected name cfg2.backendFilters = true := by
      intro name
      rw [hfil]
      exact backend_is_selected_nil name
    have hb21 : (b2.name == b1.name) = false := beq_eq_false_iff_ne.mpr (Ne.symm hd12)
    have hcmds : buildCommands cfg2.vars cfg2.backendFilters [b1, b2] [] =
        .ok [(b1.name, c1), (b2.name, c2)] := by
      rw [buildCommands_cons_ok cfg2.vars cfg2.backendFilters b1 _ _ c1
          hen1 hstrip1 hne1 (hsel b1.name) hcne1 hf1,
        dictInsert_of_not_found ([] : List (String × String)) b1.name c1 rfl]
      rw [buildCommands_cons_ok cfg2.vars cfg2.backendFilters b2 _ _ c2
          hen2 hstrip2 hne2 (hsel b2.name) hcne2 hf2]
      rw [dictInsert_of_not_found _ _ _ (by simp [List.lookup, hb21])]
      rfl
    have hlk1 : List.lookup b1.name [(b1.name, c1), (b2.name, c2)] = some c1 := by
      simp [List.lookup]
    have hlk2 : List.lookup b2.name [(b1.name, c1), (b2.name, c2)] = some c2 := by
      simp [List.lookup, hb21]
    obtain ⟨w2, hwl1⟩ :=
      warmupLoop_no_timeout cfg2.strict b1.name c1 b1.warmupOutcome hw1 cfg2.warmup_runs 1 []
    obtain ⟨st1, w3, hml1, _, _, _⟩ :=
      measuredLoop_all_ok cfg2.strict b1.name c1 b1.measuredOutcome hok1 cfg2.runs 1
        initMeasState w2
    -- the trace after backend 1: only its own spawns, at least one of them
    obtain ⟨t1, he1, hv1⟩ := warmupLoop_trace cfg2.strict b1.name c1 b1.warmupOutcome
      cfg2.warmup_runs 1 []
    rw [hwl1] at he1
    have he1a : w2 = [] ++ t1 := he1
    obtain ⟨t2, he2, hv2, hpos2⟩ := measuredLoop_trace cfg2.strict b1.name c1 b1.measuredOutcome
      cfg2.runs 1 initMeasState w2
    rw [hml1] at he2
    have he2a : w3 = w2 ++ t2 := he2
    have ht2ne : t2 ≠ [] := hpos2 (by omega)
    refine ⟨w3, ?_, ?_, ?_⟩
    · rw [mainModel, hbs]
      rw [if_neg (by simp)]
      rw [hcmds]
      simp only
      rw [if_neg (by simp)]
      rw [mainLoop_cons_finished cfg2 _ sqrtQ b1 _ [] [] w2 w3 c1 [] st1
        hen1 hlk1 (by rw [henv1]; rfl) hreg1 hwl1 hml1]
      exact mainLoop_cons_envfail cfg2 _ sqrtQ b2 _ _ w3 c2 e2 hen2 hlk2 henv2
    · rw [he2a]
      intro h
      rcases List.append_eq_nil.mp h with ⟨_, h2⟩
      exact ht2ne h2
    · intro ev hev
      rw [he2a, he1a] at hev
      simp only [List.nil_append, List.mem_append] at hev
      rcases hev with h | h
      · exact (hv1 ev h).1
      · exact (hv2 ev h).1

/-- C2, counterexample to the claim as stated: when the undefined template
variable sits in the environment value of the second backend, the run does fail
with an error naming the variable and the template — but only after the
first backend has executed its full measured run: the spawn trace is
non-empty, contradicting the claimed "no backend of the list is executed". -/
theorem expansion_failure_counterexample :
    mainModel c2Cfg (fun _ => 0) =
      ⟨[⟨"b1", "run1", false, 1⟩],
       .raised (.valueError "missing template variable q in command: \x7bq\x7d")⟩ ∧
    (mainModel c2Cfg (fun _ => 0)).trace ≠ [] := by
  constructor
  · decide
  · decide

/-- Closed instance of the amended expansion-failure theorem. -/
theorem expansion_failure_abort_points_witness :
    mainModel c2BadCfg (fun _ => 0) =
      ⟨[], .raised (.valueError "missing template variable q in command: \x7bq\x7d")⟩ ∧
    (∃ v2, format_command [TemplatePart.var "q"] [] = .error (.valueError
        ("missing template variable " ++ v2 ++ " in command: " ++
          templateRaw [TemplatePart.var "q"])) ∧
      ([] : List (String × String)).lookup v2 = none ∧
      TemplatePart.var v2 ∈ [TemplatePart.var "q"]) ∧
    (∃ trace, mainModel c2Cfg (fun _ => 0) =
        ⟨trace, .raised (.valueError "missing template variable q in command: \x7bq\x7d")⟩ ∧
      trace ≠ [] ∧ ∀ ev ∈ trace, ev.backend = c2B1.name) := by
  have big := expansion_failure_abort_points c2BadCfg c2Cfg (fun _ => 0)
    (.valueError "missing template variable q in command: \x7bq\x7d")
    (.valueError "missing template variable q in command: \x7bq\x7d")
    [TemplatePart.var "q"] [] "q" c2B1 c2B2 "run1" "run2"
  exact ⟨big.1 (by exact List.cons_ne_nil _ _) rfl,
    big.2.1 (by decide) rfl,
    big.2.2 rfl rfl (by decide) rfl rfl (by decide) (by decide) (by decide) (by decide)
      (by decide) rfl rfl rfl rfl rfl (by decide)
      (fun j => by simp [c2B1]) (fun j => rfl) rfl⟩

/-- C4 (amended). Ranking sorts the good rows ascending by the
direction-aware key — the raw median for `lower`, the negated median for
`higher` — as a permutation of the good rows; when some backend ranked and
the best median is positive, every good row receives the ratio
`median/best` (`higher`) respectively `best/median` (`lower`); ratios are
omitted exactly when no backend ranked or the best median is **not positive**
(zero or negative — the source guard is `best_median > 0`, not `!= 0`); the
50/100 example under `higher` ranks the 100-median row first with ratio 1
and the 50-median row second with ratio 1/2. -/
theorem ranking_and_ratios (direction : String) (rows : List ResultRow) (best : ℚ) :
    List.Pairwise (fun a b => rankKeyOf direction a ≤ rankKeyOf direction b)
      (rankedRows direction rows) ∧
    List.Perm (rankedRows direction rows) (rows.filter isGood) ∧
    (∀ v : ℚ, ranking_key "higher" v = -v ∧ ranking_key "lower" v = v) ∧
    (bestMedian direction rows = some best → 0 < best →
      (applyRatios direction rows).map (fun r => r.summary.median_vs_best)
        = rows.map (fun r =>
            if isGood r = true then some (ratioOf direction best ((rowMedian r).getD 0))
            else r.summary.median_vs_best)) ∧
    (bestMedian direction rows = none → applyRatios direction rows = rows) ∧
    (bestMedian direction rows = some best → best ≤ 0 →
      applyRatios direction rows = rows) ∧
    (bestMedian direction rows = some best → 0 < best →
      (∀ r ∈ rows, r.summary.median_vs_best = none) →
      ∃ r ∈ applyRatios direction rows, r.summary.median_vs_best ≠ none) ∧
    (∀ v : ℚ, ratioOf "higher" best v = v / best) ∧
    (bestMedian direction rows = some best → 0 < best → direction = "lower" →
      ∀ r ∈ rows.filter isGood,
        ratioOf direction best ((rowMedian r).getD 0) = best / ((rowMedian r).getD 0)) ∧
    rankedRows "higher" [rowA50, rowB100] = [rowB100, rowA50] ∧
    (applyRatios "higher" [rowA50, rowB100]).map (fun r => r.summary.median_vs_best)
      = [some (1 / 2), some 1] := by
  haveI hTot : IsTotal ResultRow (fun a b => rankKeyOf direction a ≤ rankKeyOf direction b) :=
    ⟨fun a b => le_total _ _⟩
  haveI hTr : IsTrans ResultRow (fun a b => rankKeyOf direction a ≤ rankKeyOf direction b) :=
    ⟨fun a b c h1 h2 => le_trans h1 h2⟩
  refine ⟨?_, ?_, ?_, ?_, ?_, ?_, ?_, ?_, ?_, ?_, ?_⟩
  · exact List.sorted_insertionSort _ _
  · exact List.perm_insertionSort _ _
  · intro v
    constructor <;> rfl
  · intro hbest hpos
    simp only [applyRatios, hbest]
    rw [if_pos hpos, List.map_map]
    apply List.map_congr_left
    intro r _
    by_cases hg : isGood r = true <;> simp [hg]
  · intro hbest
    simp only [applyRatios, hbest]
  · intro hbest hle
    simp only [applyRatios, hbest]
    rw [if_neg (not_lt.mpr hle)]
  · intro hbest hpos _
    have hgood : (rows.filter isGood) ≠ [] := by
      intro hemp
      rw [bestMedian] at hbest
      simp only [hemp] at hbest
      cases hbest
    obtain ⟨r, hr⟩ : ∃ r, r ∈ rows.filter isGood := by
      cases hfe : rows.filter isGood with
      | nil => exact absurd hfe hgood
      | cons a l => exact ⟨a, List.mem_cons_self a l⟩
    have hrmem : r ∈ rows := List.mem_of_mem_filter hr
    have hrg : isGood r = true := List.of_mem_filter hr
    simp only [applyRatios, hbest]
    rw [if_pos hpos]
    refine ⟨_, List.mem_map.mpr ⟨r, hrmem, rfl⟩, ?_⟩
    simp [hrg]
  · intro v
    rfl
  · intro hbest hpos hdir r hr
    have hmed : best ≤ (rowMedian r).getD 0 := by
      rw [bestMedian, hdir] at hbest
      by_cases hemp : (rows.filter isGood).isEmpty
      · simp [hemp] at hbest
      · simp only [hemp, Bool.false_eq_true, if_false] at hbest
        have : ("lower" == "higher") = false := by decide
        rw [this] at hbest
        simp only [Bool.false_eq_true, if_false, Option.some_inj] at hbest
        rw [← hbest]
        apply listMin_le_of_mem
        exact List.mem_map.mpr ⟨r, hr, rfl⟩
    have hne : (rowMedian r).getD 0 ≠ 0 := by
      intro h0
      rw [h0] at hmed
      exact absurd (lt_of_lt_of_le hpos hmed) (lt_irrefl 0)
    rw [ratioOf, hdir]
    have h1 : ("lower" == "higher") = false := by decide
    rw [h1]
    simp [hne]
  · decide
  · have hbest2 : bestMedian "higher" [rowA50, rowB100] = some 100 := by decide
    simp only [applyRatios, hbest2]
    rw [if_pos (by norm_num), List.map_map]
    have hgA : isGood rowA50 = true := by decide
    have hgB : isGood rowB100 = true := by decide
    simp only [List.map_cons, List.map_nil, Function.comp_apply, hgA, hgB, if_true]
    have hmA : (rowMedian rowA50).getD 0 = 50 := by decide
    have hmB : (rowMedian rowB100).getD 0 = 100 := by decide
    rw [hmA, hmB]
    have hrA : ratioOf "higher" 100 50 = 1 / 2 := by
      rw [ratioOf]
      norm_num
    have hrB : ratioOf "higher" 100 100 = 1 := by
      rw [ratioOf]
      norm_num
    simp [hrA, hrB]

/-- C4, counterexample to "ratios are omitted exactly when the best median is
zero or no backend ranked": with good medians −2 and −1 under `higher`, two
backends rank and the best median is −1 ≠ 0, yet the source guard
`best_median > 0` fails and every ratio is omitted. -/
theorem ratio_omission_counterexample :
    bestMedian "higher" [rowN1, rowN2] = some (-1) ∧
    ((-1 : ℚ) = 0 → False) ∧
    (rankedRows "higher" [rowN1, rowN2]).length = 2 ∧
    applyRatios "higher" [rowN1, rowN2] = [rowN1, rowN2] ∧
    ∀ r ∈ applyRatios "higher" [rowN1, rowN2], r.summary.median_vs_best = none := by
  refine ⟨by decide, by decide, by decide, by decide, by decide⟩

/-- Closed instance of the ranking-and-ratios theorem. -/
theorem ranking_and_ratios_witness :
    bestMedian "higher" [rowA50, rowB100] = some 100 ∧
    (0 : ℚ) < 100 ∧
    ((applyRatios "higher" [rowA50, rowB100]).map (fun r => r.summary.median_vs_best)
      = [rowA50, rowB100].map (fun r =>
          if isGood r = true then some (ratioOf "higher" 100 ((rowMedian r).getD 0))
          else r.summary.median_vs_best)) ∧
    List.Pairwise (fun a b => rankKeyOf "higher" a ≤ rankKeyOf "higher" b)
      (rankedRows "higher" [rowA50, rowB100]) :=
  ⟨by decide, by norm_num,
   (ranking_and_ratios "higher" [rowA50, rowB100] 100).2.2.2.1 (by decide) (by norm_num),
   (ranking_and_ratios "higher" [rowA50, rowB100] 100).1⟩

/-- Closed instance of the percentile theorem. -/
theorem percentile_matches_spec_witness :
    ([1, 3] : List ℚ) ≠ [] ∧
    (((50 : ℚ) ≤ 0 → percentile [1, 3] 50 = some (listMin [1, 3])) ∧
     ((100 : ℚ) ≤ 50 → percentile [1, 3] 50 = some (listMax [1, 3])) ∧
     ((0 : ℚ) < 50 → (50 : ℚ) < 100 →
        percentile [1, 3] 50 = some (specPercentileInterp [1, 3] 50)) ∧
     percentile [1, 3] 0 = some (listMin [1, 3]) ∧
     percentile [1, 3] 100 = some (listMax [1, 3])) :=
  ⟨by decide, percentile_matches_spec [1, 3] 50 (by decide)⟩

/-- Closed instance of the summarize theorem. -/
theorem summarize_matches_spec_witness :
    ([5] : List ℚ) ≠ [] ∧
    (summarize (fun _ => 0) [] = none ∧
     ∃ s, summarize (fun _ => 0) [5] = some s ∧
       s.min ≤ s.median ∧ s.median ≤ s.max ∧
       s.min ≤ s.mean ∧ s.mean ≤ s.max ∧
       (([5] : List ℚ).length = 1 → s.stdev = 0)) :=
  ⟨by decide, summarize_matches_spec (fun _ => 0) [5] (by decide)⟩

/-- Closed instance of the chart-renderer theorem, at the all-zero medians of
the spec example. -/
theorem build_svg_chart_witness :
    ([("A", 0), ("B", 0)] : List (String × ℚ)) ≠ [] ∧
    (∃ w ht scale bars,
      build_svg_chart [("A", 0), ("B", 0)] = .chart w ht scale bars ∧
      0 < scale ∧ bars.length = ([("A", 0), ("B", 0)] : List (String × ℚ)).length ∧
      (listMax (([("A", 0), ("B", 0)] : List (String × ℚ)).map Prod.snd) ≤ 0 → scale = 1)) :=
  ⟨by decide, build_svg_chart_never_divides_by_zero [("A", 0), ("B", 0)] (by decide)⟩

/-- Closed instance of the aux-regex precedence theorem: metric key `m`,
`parse` entries for `m`, `k` and `j`, explicit `aux_metrics` entry for `k`. -/
theorem buildAuxRegexes_precedence_witness :
    ((([("k", RegexSpec.str "ak")] : List (String × RegexSpec)).map Prod.fst).Nodup ∧
     (([("m", RegexSpec.str "pm"), ("k", RegexSpec.str "pk"), ("j", RegexSpec.str "pj")] :
        List (String × RegexSpec)).map Prod.fst).Nodup) ∧
    ((∀ kv ∈ ([("k", RegexSpec.str "ak")] : List (String × RegexSpec)),
        (buildAuxRegexes "m"
            [("m", RegexSpec.str "pm"), ("k", RegexSpec.str "pk"), ("j", RegexSpec.str "pj")]
            [("k", RegexSpec.str "ak")]).lookup kv.1 = some (normalize_regexes kv.2)) ∧
     (∀ kv ∈ ([("m", RegexSpec.str "pm"), ("k", RegexSpec.str "pk"), ("j", RegexSpec.str "pj")] :
        List (String × RegexSpec)), kv.1 ≠ "m" →
        ([("k", RegexSpec.str "ak")] : List (String × RegexSpec)).lookup kv.1 = none →
        (buildAuxRegexes "m"
            [("m", RegexSpec.str "pm"), ("k", RegexSpec.str "pk"), ("j", RegexSpec.str "pj")]
            [("k", RegexSpec.str "ak")]).lookup kv.1 = some (normalize_regexes kv.2)) ∧
     (∀ kv ∈ ([("m", RegexSpec.str "pm"), ("k", RegexSpec.str "pk"), ("j", RegexSpec.str "pj")] :
        List (String × RegexSpec)), kv.1 = "m" →
        ([("k", RegexSpec.str "ak")] : List (String × RegexSpec)).lookup kv.1 = none →
        (buildAuxRegexes "m"
            [("m", RegexSpec.str "pm"), ("k", RegexSpec.str "pk"), ("j", RegexSpec.str "pj")]
            [("k", RegexSpec.str "ak")]).lookup kv.1 = none) ∧
     (∀ k, ((buildAuxRegexes "m"
            [("m", RegexSpec.str "pm"), ("k", RegexSpec.str "pk"), ("j", RegexSpec.str "pj")]
            [("k", RegexSpec.str "ak")]).lookup k).isSome →
        (([("k", RegexSpec.str "ak")] : List (String × RegexSpec)).lookup k).isSome ∨
          ((([("m", RegexSpec.str "pm"), ("k", RegexSpec.str "pk"), ("j", RegexSpec.str "pj")] :
            List (String × RegexSpec)).lookup k).isSome ∧ k ≠ "m"))) :=
  ⟨⟨by decide, by decide⟩,
   buildAuxRegexes_precedence "m"
     [("m", RegexSpec.str "pm"), ("k", RegexSpec.str "pk"), ("j", RegexSpec.str "pj")]
     [("k", RegexSpec.str "ak")] (by decide) (by decide)⟩

/-- Closed instance of the timeout-asymmetry theorem (the warmup-timeout and
measured-timeout scenarios instantiate it with their respective backends). -/
theorem warmup_vs_measured_timeout_witness :
    (warmupLoop true "n" "c" (fun _ => .timeout) (0 + 1) 1 []
        = ([] ++ [⟨"n", "c", true, 1⟩], some (.timeoutExpired "c")) ∧
      measuredLoop true "n" "c" (fun _ => .timeout) (0 + 1) 1 initMeasState []
        = ([] ++ [⟨"n", "c", false, 1⟩],
           .halted { initMeasState with
             failed_runs := initMeasState.failed_runs + 1
             measured_runs := initMeasState.measured_runs ++ [.timeoutEntry 1] })) ∧
    (∃ trace2, warmupLoop false "n" "c" (fun _ => .timeout) 2 1 [] = (trace2, none)) ∧
    (∃ st2 trace2,
      measuredLoop false "n" "c" (fun _ => .timeout) 2 1 initMeasState []
        = (trace2, .finished st2) ∧
      st2.measured_runs.length = initMeasState.measured_runs.length + 2) ∧
    (mainLoop c7Cfg [("w", "cw")] (fun _ => 0) [c7TimeoutB] [] []
      = ⟨[] ++ [⟨c7TimeoutB.name, "cw", true, 1⟩], .raised (.timeoutExpired "cw")⟩) ∧
    (∃ trace3, mainLoop c7Cfg [("w", "cw")] (fun _ => 0) [c7MeasB] [] []
      = ⟨trace3, .exited 2 []⟩) :=
  have t1 := warmup_vs_measured_timeout "n" "c" (fun _ => .timeout) 0 1 2 initMeasState []
    c7Cfg [("w", "cw")] (fun _ => 0) c7TimeoutB [] [] "cw" []
  have t2 := warmup_vs_measured_timeout "n" "c" (fun _ => .timeout) 0 1 2 initMeasState []
    c7Cfg [("w", "cw")] (fun _ => 0) c7MeasB [] [] "cw" []
  ⟨t1.1 rfl, t1.2.1, t1.2.2.1,
   t1.2.2.2.1 rfl rfl rfl rfl (by decide) rfl (by decide),
   t2.2.2.2.2 rfl rfl rfl rfl (by decide) (fun j => by simp [c7MeasB]) rfl (by decide)⟩

end GGUFCompare
